import Mathlib

/-!
Verification of the ENAPRES crime-classification batch pipeline.

Shallow embedding of the core components:
* `generate_prediction_api` — per-request retry/backoff loop
  (src/scripts/4_Api_delito_validador.py)
* `process_single_case` / `process_batch_async` / `save_batch_results`
  — batch scheduling and persistence (same file)
* `find_batch_files` / `load_batch_files` / `parse_detailed_predictions` /
  `create_unnested_format` — consolidation (src/scripts/5_lotes_processor.py)
* `classify_record` — error taxonomy (src/scripts/6_Error_results.py)

Python strings are Lean `String`s, JSON values are the `Json` inductive
below, Python dicts are association lists with update-in-place-or-append
insertion (preserving Python's insertion-order semantics), and Python
exceptions are modelled with `Except PyExn`.  Times are rationals.
Floating point JSON numbers are carried as their lexeme (`Json.numOther`);
no claim evaluates arithmetic on them.
-/

namespace Enapres

/-- Python exception kinds that the embedded code can raise or catch. -/
inductive PyExn where
  | keyError
  | indexError
  | typeError
  | attributeError
  | jsonDecodeError
  | valueError
deriving DecidableEq, Repr

instance {ε α : Type} [DecidableEq ε] [DecidableEq α] : DecidableEq (Except ε α) :=
  fun a b =>
    match a, b with
    | .ok x, .ok y =>
      if h : x = y then .isTrue (by simp [h]) else .isFalse (by simp [h])
    | .error x, .error y =>
      if h : x = y then .isTrue (by simp [h]) else .isFalse (by simp [h])
    | .ok _, .error _ => .isFalse (by simp)
    | .error _, .ok _ => .isFalse (by simp)

/-! ### String utilities -/

/-- `sub` occurs as a prefix of `s` (over char lists). -/
def listStartsWith : List Char → List Char → Bool
  | _, [] => true
  | [], _ :: _ => false
  | c :: cs, d :: ds => c == d && listStartsWith cs ds

/-- `sub` occurs contiguously inside `hay`: Python's `sub in hay` on strings. -/
def listContainsSub (hay sub : List Char) : Bool :=
  match hay with
  | [] => sub.isEmpty
  | _ :: cs => listStartsWith hay sub || listContainsSub cs sub

/-- Python `sub in s` for strings. -/
def strContains (s sub : String) : Bool :=
  listContainsSub s.toList sub.toList

/-- Code-point lexicographic order on char lists (Python string `<`). -/
def charListLt : List Char → List Char → Bool
  | [], [] => false
  | [], _ :: _ => true
  | _ :: _, [] => false
  | a :: as, b :: bs =>
    if a.val < b.val then true
    else if a.val == b.val then charListLt as bs
    else false

/-- Python string `<` (code-point lexicographic). -/
def strLt (a b : String) : Bool := charListLt a.toList b.toList

/-- Insert into an already-sorted list (ascending by `strLt`). -/
def insertStr (x : String) : List String → List String
  | [] => [x]
  | y :: ys => if strLt x y then x :: y :: ys else y :: insertStr x ys

/-- Python `sorted` on a list of strings. -/
def sortStrings : List String → List String
  | [] => []
  | x :: xs => insertStr x (sortStrings xs)

/-- Whitespace class of the regex `\s` / of `str.strip`. -/
def isPyWs (c : Char) : Bool :=
  c == ' ' || c == '\t' || c == '\n' || c == '\r' || c == '\x0b' || c == '\x0c'

/-- Python `str.strip()` on a char list. -/
def listStrip (cs : List Char) : List Char :=
  ((cs.dropWhile isPyWs).reverse.dropWhile isPyWs).reverse

/-- Python `str.strip()`. -/
def pyStrip (s : String) : String := ⟨listStrip s.toList⟩

/-- Python `str.lower()` (ASCII; the embedded code only tests ASCII markers). -/
def pyLower (s : String) : String := ⟨s.toList.map Char.toLower⟩

/-! ### JSON values (result of Python `json.loads`) -/

/-- A parsed JSON value.  Integers are exact; non-integer numeric lexemes are
kept verbatim in `numOther`.  Objects are insertion-ordered key/value lists
with unique keys (duplicates collapse, last wins, as in `json.loads`). -/
inductive Json where
  | null
  | bool (b : Bool)
  | num (n : Int)
  | numOther (lexeme : String)
  | str (s : String)
  | arr (elems : List Json)
  | obj (fields : List (String × Json))
deriving Repr

mutual
/-- Structural equality test for `Json`. -/
def jsonBEq : Json → Json → Bool
  | .null, .null => true
  | .bool a, .bool b => a == b
  | .num a, .num b => a == b
  | .numOther a, .numOther b => a == b
  | .str a, .str b => a == b
  | .arr a, .arr b => jsonListBEq a b
  | .obj a, .obj b => jsonFieldsBEq a b
  | _, _ => false

/-- Equality on JSON arrays. -/
def jsonListBEq : List Json → List Json → Bool
  | [], [] => true
  | a :: as, b :: bs => jsonBEq a b && jsonListBEq as bs
  | _, _ => false

/-- Equality on JSON object field lists. -/
def jsonFieldsBEq : List (String × Json) → List (String × Json) → Bool
  | [], [] => true
  | (ka, va) :: as, (kb, vb) :: bs => ka == kb && jsonBEq va vb && jsonFieldsBEq as bs
  | _, _ => false
end

mutual
theorem jsonBEq_refl : ∀ a : Json, jsonBEq a a = true
  | .null => rfl
  | .bool b => by simp [jsonBEq]
  | .num n => by simp [jsonBEq]
  | .numOther s => by simp [jsonBEq]
  | .str s => by simp [jsonBEq]
  | .arr xs => by simp [jsonBEq, jsonListBEq_refl xs]
  | .obj fs => by simp [jsonBEq, jsonFieldsBEq_refl fs]

theorem jsonListBEq_refl : ∀ xs : List Json, jsonListBEq xs xs = true
  | [] => rfl
  | x :: xs => by simp [jsonListBEq, jsonBEq_refl x, jsonListBEq_refl xs]

theorem jsonFieldsBEq_refl : ∀ fs : List (String × Json), jsonFieldsBEq fs fs = true
  | [] => rfl
  | (k, v) :: fs => by simp [jsonFieldsBEq, jsonBEq_refl v, jsonFieldsBEq_refl fs]
end

mutual
theorem jsonBEq_eq : ∀ a b : Json, jsonBEq a b = true → a = b
  | .null, .null, _ => rfl
  | .bool a, .bool b, h => by simpa [jsonBEq] using congrArg Json.bool (by simpa [jsonBEq] using h)
  | .num a, .num b, h => by
      have : a = b := by simpa [jsonBEq] using h
      simp [this]
  | .numOther a, .numOther b, h => by
      have : a = b := by simpa [jsonBEq] using h
      simp [this]
  | .str a, .str b, h => by
      have : a = b := by simpa [jsonBEq] using h
      simp [this]
  | .arr a, .arr b, h => by
      have : a = b := jsonListBEq_eq a b (by simpa [jsonBEq] using h)
      simp [this]
  | .obj a, .obj b, h => by
      have : a = b := jsonFieldsBEq_eq a b (by simpa [jsonBEq] using h)
      simp [this]
  | .null, .bool _, h => by simp [jsonBEq] at h
  | .null, .num _, h => by simp [jsonBEq] at h
  | .null, .numOther _, h => by simp [jsonBEq] at h
  | .null, .str _, h => by simp [jsonBEq] at h
  | .null, .arr _, h => by simp [jsonBEq] at h
  | .null, .obj _, h => by simp [jsonBEq] at h
  | .bool _, .null, h => by simp [jsonBEq] at h
  | .bool _, .num _, h => by simp [jsonBEq] at h
  | .bool _, .numOther _, h => by simp [jsonBEq] at h
  | .bool _, .str _, h => by simp [jsonBEq] at h
  | .bool _, .arr _, h => by simp [jsonBEq] at h
  | .bool _, .obj _, h => by simp [jsonBEq] at h
  | .num _, .null, h => by simp [jsonBEq] at h
  | .num _, .bool _, h => by simp [jsonBEq] at h
  | .num _, .numOther _, h => by simp [jsonBEq] at h
  | .num _, .str _, h => by simp [jsonBEq] at h
  | .num _, .arr _, h => by simp [jsonBEq] at h
  | .num _, .obj _, h => by simp [jsonBEq] at h
  | .numOther _, .null, h => by simp [jsonBEq] at h
  | .numOther _, .bool _, h => by simp [jsonBEq] at h
  | .numOther _, .num _, h => by simp [jsonBEq] at h
  | .numOther _, .str _, h => by simp [jsonBEq] at h
  | .numOther _, .arr _, h => by simp [jsonBEq] at h
  | .numOther _, .obj _, h => by simp [jsonBEq] at h
  | .str _, .null, h => by simp [jsonBEq] at h
  | .str _, .bool _, h => by simp [jsonBEq] at h
  | .str _, .num _, h => by simp [jsonBEq] at h
  | .str _, .numOther _, h => by simp [jsonBEq] at h
  | .str _, .arr _, h => by simp [jsonBEq] at h
  | .str _, .obj _, h => by simp [jsonBEq] at h
  | .arr _, .null, h => by simp [jsonBEq] at h
  | .arr _, .bool _, h => by simp [jsonBEq] at h
  | .arr _, .num _, h => by simp [jsonBEq] at h
  | .arr _, .numOther _, h => by simp [jsonBEq] at h
  | .arr _, .str _, h => by simp [jsonBEq] at h
  | .arr _, .obj _, h => by simp [jsonBEq] at h
  | .obj _, .null, h => by simp [jsonBEq] at h
  | .obj _, .bool _, h => by simp [jsonBEq] at h
  | .obj _, .num _, h => by simp [jsonBEq] at h
  | .obj _, .numOther _, h => by simp [jsonBEq] at h
  | .obj _, .str _, h => by simp [jsonBEq] at h
  | .obj _, .arr _, h => by simp [jsonBEq] at h

theorem jsonListBEq_eq : ∀ a b : List Json, jsonListBEq a b = true → a = b
  | [], [], _ => rfl
  | [], _ :: _, h => by simp [jsonListBEq] at h
  | _ :: _, [], h => by simp [jsonListBEq] at h
  | x :: xs, y :: ys, h => by
      have h1 : jsonBEq x y = true := by
        have := h; simp [jsonListBEq] at this; exact this.1
      have h2 : jsonListBEq xs ys = true := by
        have := h; simp [jsonListBEq] at this; exact this.2
      have e1 := jsonBEq_eq x y h1
      have e2 := jsonListBEq_eq xs ys h2
      simp [e1, e2]

theorem jsonFieldsBEq_eq : ∀ a b : List (String × Json), jsonFieldsBEq a b = true → a = b
  | [], [], _ => rfl
  | [], _ :: _, h => by simp [jsonFieldsBEq] at h
  | _ :: _, [], h => by simp [jsonFieldsBEq] at h
  | (ka, va) :: xs, (kb, vb) :: ys, h => by
      simp only [jsonFieldsBEq, Bool.and_eq_true, beq_iff_eq] at h
      obtain ⟨⟨h0, h1⟩, h2⟩ := h
      have e1 := jsonBEq_eq va vb h1
      have e2 := jsonFieldsBEq_eq xs ys h2
      simp [h0, e1, e2]
end

instance : DecidableEq Json := fun a b =>
  if h : jsonBEq a b = true then .isTrue (jsonBEq_eq a b h)
  else .isFalse (fun he => h (he ▸ jsonBEq_refl a))

/-! ### Python dict / value semantics -/

/-- Python dict assignment `m[k] = v`: update in place if the key exists,
otherwise append (insertion order preserved). -/
def dictInsert {α β : Type} [DecidableEq α] : List (α × β) → α → β → List (α × β)
  | [], k, v => [(k, v)]
  | (k', v') :: m, k, v =>
    if k' = k then (k, v) :: m else (k', v') :: dictInsert m k v

/-- Python dict lookup `m.get(k)` returning `None` when absent. -/
def dictLookup {α β : Type} [DecidableEq α] : List (α × β) → α → Option β
  | [], _ => none
  | (k', v') :: m, k => if k' = k then some v' else dictLookup m k

/-- Python `m.pop(k)`: the removed value (if present) and the remaining dict. -/
def dictPop {α β : Type} [DecidableEq α] : List (α × β) → α → Option β × List (α × β)
  | [], _ => (none, [])
  | (k', v') :: m, k =>
    if k' = k then (some v', m)
    else
      let r := dictPop m k
      (r.1, (k', v') :: r.2)

/-- Python truthiness of a parsed JSON value (`bool(v)`).  For non-integer
numeric lexemes the mantissa is inspected textually; extreme-exponent
underflow to `0.0` is not modelled (no claim involves it). -/
def pyFalsy : Json → Bool
  | .null => true
  | .bool b => !b
  | .num n => n == 0
  | .numOther lexeme =>
    (lexeme.toList.takeWhile (fun c => c != 'e' && c != 'E')).all
      (fun c => !c.isDigit || c == '0')
  | .str s => s == ""
  | .arr xs => xs.isEmpty
  | .obj fs => fs.isEmpty

/-- Python `key in v` for a string key: membership for dicts, substring
test for strings, element membership for lists, `TypeError` otherwise. -/
def pyIn (key : String) : Json → Except PyExn Bool
  | .obj fs => .ok (fs.any (fun p => p.1 == key))
  | .str s => .ok (strContains s key)
  | .arr xs => .ok (xs.any (fun x => x == Json.str key))
  | _ => .error .typeError

/-- Python subscription `v[k]` on parsed JSON values, with Python's
negative indexing and exception behaviour (`bool` indexes as 0/1). -/
def pySubscript (v k : Json) : Except PyExn Json :=
  match v, k with
  | .obj fs, .str s =>
    match dictLookup fs s with
    | some r => .ok r
    | none => .error .keyError
  | .obj _, .arr _ => .error .typeError
  | .obj _, .obj _ => .error .typeError
  | .obj _, _ => .error .keyError
  | .arr xs, .num n =>
    let i : Int := if n < 0 then n + xs.length else n
    if h : 0 ≤ i ∧ i.toNat < xs.length then .ok (xs.get ⟨i.toNat, h.2⟩)
    else .error .indexError
  | .arr xs, .bool b =>
    let i := if b then 1 else 0
    if h : i < xs.length then .ok (xs.get ⟨i, h⟩) else .error .indexError
  | .arr _, _ => .error .typeError
  | .str s, .num n =>
    let cs := s.toList
    let i : Int := if n < 0 then n + cs.length else n
    if h : 0 ≤ i ∧ i.toNat < cs.length then .ok (.str ⟨[cs.get ⟨i.toNat, h.2⟩]⟩)
    else .error .indexError
  | .str s, .bool b =>
    let cs := s.toList
    let i := if b then 1 else 0
    if h : i < cs.length then .ok (.str ⟨[cs.get ⟨i, h⟩]⟩) else .error .indexError
  | .str _, _ => .error .typeError
  | _, _ => .error .typeError

/-- Python `v.get(key, dflt)`: only dicts have `.get`; anything else raises
`AttributeError`. -/
def pyGetDefault (v : Json) (key : String) (dflt : Json) : Except PyExn Json :=
  match v with
  | .obj fs => .ok ((dictLookup fs key).getD dflt)
  | _ => .error .attributeError

/-- Python iteration `for x in v`: list elements, string characters, dict
keys; `TypeError` otherwise. -/
def pyIter : Json → Except PyExn (List Json)
  | .arr xs => .ok xs
  | .str s => .ok (s.toList.map (fun c => .str ⟨[c]⟩))
  | .obj fs => .ok (fs.map (fun p => .str p.1))
  | _ => .error .typeError

/-- Python `repr` of a quoted string (helper for `pyRepr`).  Escapes cover
the backslash and quote characters; non-printable escaping is not modelled
(never hit by the claims). -/
def pyReprStr (s : String) : String :=
  let q : Char := if strContains s "'" && !(strContains s "\"") then '"' else '\''
  let body := s.toList.foldr (fun c acc =>
    if c == '\\' then '\\' :: '\\' :: acc
    else if c == q then '\\' :: c :: acc
    else c :: acc) []
  ⟨q :: body ++ [q]⟩

mutual
/-- Python `repr` of a parsed JSON value (used by `str` on lists/dicts). -/
def pyRepr : Json → String
  | .null => "None"
  | .bool true => "True"
  | .bool false => "False"
  | .num n => toString n
  | .numOther lexeme => lexeme
  | .str s => pyReprStr s
  | .arr xs => "[" ++ pyReprElems xs ++ "]"
  | .obj fs => "\x7b" ++ pyReprFields fs ++ "\x7d"

/-- Comma-separated `repr`s of list elements. -/
def pyReprElems : List Json → String
  | [] => ""
  | [x] => pyRepr x
  | x :: y :: xs => pyRepr x ++ ", " ++ pyReprElems (y :: xs)

/-- Comma-separated `key: value` `repr`s of dict fields. -/
def pyReprFields : List (String × Json) → String
  | [] => ""
  | [(k, v)] => pyReprStr k ++ ": " ++ pyRepr v
  | (k, v) :: f :: fs => pyReprStr k ++ ": " ++ pyRepr v ++ ", " ++ pyReprFields (f :: fs)
end

/-- Python `str` of a parsed JSON value. -/
def pyStr : Json → String
  | .null => "None"
  | .bool true => "True"
  | .bool false => "False"
  | .num n => toString n
  | .numOther lexeme => lexeme
  | .str s => s
  | .arr xs => pyRepr (.arr xs)
  | .obj fs => pyRepr (.obj fs)

/-! ### `json.loads`: a strict RFC 8259 parser -/

/-- Drop JSON inter-token whitespace. -/
def skipJsonWs (cs : List Char) : List Char :=
  cs.dropWhile (fun c => c == ' ' || c == '\t' || c == '\n' || c == '\r')

/-- Hex digit value, by code point: digits 48-57, lowercase 97-102 (less
87), uppercase 65-70 (less 55). -/
def hexVal (c : Char) : Option Nat :=
  let n := c.toNat
  if 48 ≤ n && n ≤ 57 then some (n - 48)
  else if 97 ≤ n && n ≤ 102 then some (n - 87)
  else if 65 ≤ n && n ≤ 70 then some (n - 55)
  else none

/-- Body of a JSON string literal, after the opening quote.  Strict mode:
raw control characters are rejected, as `json.loads` does by default.
Lone `\\u` surrogate halves map through `Char.ofNat`'s fallback. -/
def parseJsonStringBody : List Char → List Char → Option (String × List Char)
  | [], _ => none
  | c :: cs, acc =>
    if c == '"' then some (⟨acc.reverse⟩, cs)
    else if c == '\\' then
      match cs with
      | [] => none
      | e :: cs2 =>
        if e == '"' then parseJsonStringBody cs2 ('"' :: acc)
        else if e == '\\' then parseJsonStringBody cs2 ('\\' :: acc)
        else if e == '/' then parseJsonStringBody cs2 ('/' :: acc)
        else if e == 'b' then parseJsonStringBody cs2 ('\x08' :: acc)
        else if e == 'f' then parseJsonStringBody cs2 ('\x0c' :: acc)
        else if e == 'n' then parseJsonStringBody cs2 ('\n' :: acc)
        else if e == 'r' then parseJsonStringBody cs2 ('\r' :: acc)
        else if e == 't' then parseJsonStringBody cs2 ('\t' :: acc)
        else if e == 'u' then
          match cs2 with
          | h1 :: h2 :: h3 :: h4 :: cs3 =>
            match hexVal h1, hexVal h2, hexVal h3, hexVal h4 with
            | some a, some b, some c', some d =>
              parseJsonStringBody cs3
                (Char.ofNat (a * 4096 + b * 256 + c' * 16 + d) :: acc)
            | _, _, _, _ => none
          | _ => none
        else none
    else if c.val < 0x20 then none
    else parseJsonStringBody cs (c :: acc)

/-- JSON number: `-?(0|[1-9][0-9]*)(\.[0-9]+)?([eE][+-]?[0-9]+)?`.
Pure integers become `Json.num`; anything with a fraction or exponent keeps
its lexeme in `Json.numOther` (Python would produce a float). -/
def parseJsonNumber (cs : List Char) : Option (Json × List Char) :=
  let (sign, cs1) : List Char × List Char :=
    match cs with
    | '-' :: rest => (['-'], rest)
    | _ => ([], cs)
  match cs1 with
  | [] => none
  | d :: _ =>
    if !d.isDigit then none
    else
      let intPart := cs1.takeWhile Char.isDigit
      let cs2 := cs1.dropWhile Char.isDigit
      if intPart.length > 1 && d == '0' then none
      else
        let (fracPart, cs3) : List Char × List Char :=
          match cs2 with
          | '.' :: rest =>
            let ds := rest.takeWhile Char.isDigit
            if ds.isEmpty then ([], cs2) else ('.' :: ds, rest.dropWhile Char.isDigit)
          | _ => ([], cs2)
        match cs3 with
        | e :: rest0 =>
          if e == 'e' || e == 'E' then
            let (esign, rest1) : List Char × List Char :=
              match rest0 with
              | '+' :: r => (['+'], r)
              | '-' :: r => (['-'], r)
              | _ => ([], rest0)
            let eds := rest1.takeWhile Char.isDigit
            if eds.isEmpty then
              -- no digits after the exponent marker: the number ends before it
              if fracPart.isEmpty then
                some (.num (intToVal sign intPart), cs2)
              else
                some (.numOther ⟨sign ++ intPart ++ fracPart⟩, cs3)
            else
              some (.numOther ⟨sign ++ intPart ++ fracPart ++ e :: esign ++ eds⟩,
                    rest1.dropWhile Char.isDigit)
          else if fracPart.isEmpty then
            some (.num (intToVal sign intPart), cs2)
          else
            some (.numOther ⟨sign ++ intPart ++ fracPart⟩, cs3)
        | [] =>
          if fracPart.isEmpty then some (.num (intToVal sign intPart), cs2)
          else some (.numOther ⟨sign ++ intPart ++ fracPart⟩, cs3)
where
  /-- Decimal digits (with optional sign) to an integer. -/
  intToVal (sign digitsChars : List Char) : Int :=
    let m : Int := digitsChars.foldl (fun acc c => acc * 10 + (c.toNat - '0'.toNat : Int)) 0
    if sign.isEmpty then m else -m

mutual
/-- One JSON value at the head of the input (no leading whitespace). -/
def parseJsonValue : Nat → List Char → Option (Json × List Char)
  | 0, _ => none
  | _ + 1, [] => none
  | fuel + 1, c :: cs =>
    if c == 'n' then
      match cs with
      | 'u' :: 'l' :: 'l' :: rest => some (.null, rest)
      | _ => none
    else if c == 't' then
      match cs with
      | 'r' :: 'u' :: 'e' :: rest => some (.bool true, rest)
      | _ => none
    else if c == 'f' then
      match cs with
      | 'a' :: 'l' :: 's' :: 'e' :: rest => some (.bool false, rest)
      | _ => none
    else if c == '"' then
      match parseJsonStringBody cs [] with
      | some (s, rest) => some (.str s, rest)
      | none => none
    else if c == '[' then
      match skipJsonWs cs with
      | ']' :: rest => some (.arr [], rest)
      | cs' => parseJsonArrayItems fuel cs' []
    else if c == '\x7b' then
      match skipJsonWs cs with
      | '\x7d' :: rest => some (.obj [], rest)
      | cs' => parseJsonObjItems fuel cs' []
    else
      parseJsonNumber (c :: cs)

/-- Comma-separated array items, accumulating in reverse. -/
def parseJsonArrayItems : Nat → List Char → List Json → Option (Json × List Char)
  | 0, _, _ => none
  | fuel + 1, cs, acc =>
    match parseJsonValue fuel cs with
    | none => none
    | some (v, rest) =>
      match skipJsonWs rest with
      | ',' :: rest2 => parseJsonArrayItems fuel (skipJsonWs rest2) (v :: acc)
      | ']' :: rest2 => some (.arr (v :: acc).reverse, rest2)
      | _ => none

/-- Comma-separated object members; duplicate keys collapse (last wins),
matching Python's dict construction. -/
def parseJsonObjItems : Nat → List Char → List (String × Json) →
    Option (Json × List Char)
  | 0, _, _ => none
  | fuel + 1, cs, acc =>
    match cs with
    | '"' :: cs1 =>
      match parseJsonStringBody cs1 [] with
      | none => none
      | some (k, rest) =>
        match skipJsonWs rest with
        | ':' :: rest2 =>
          match parseJsonValue fuel (skipJsonWs rest2) with
          | none => none
          | some (v, rest3) =>
            match skipJsonWs rest3 with
            | ',' :: rest4 => parseJsonObjItems fuel (skipJsonWs rest4) (dictInsert acc k v)
            | '\x7d' :: rest4 => some (.obj (dictInsert acc k v), rest4)
            | _ => none
        | _ => none
    | _ => none
end

/-- Python `json.loads` on a string: one JSON value surrounded only by
whitespace; `none` models `json.JSONDecodeError`. -/
def jsonParse (s : String) : Option Json :=
  let cs := skipJsonWs s.toList
  match parseJsonValue (cs.length + 1) cs with
  | some (v, rest) => if (skipJsonWs rest).isEmpty then some v else none
  | none => none

/-! ### Hand-compiled regex matchers

The pipeline uses four fixed regexes; each is compiled here to a dedicated
matcher with Python `re` semantics (leftmost match, lazy/greedy as
written, `re.DOTALL` so `.` spans newlines). -/

/-- Consume a literal; `none` if the input does not start with it. -/
def matchLit : List Char → List Char → Option (List Char)
  | [], cs => some cs
  | _ :: _, [] => none
  | l :: ls, c :: cs => if l == c then matchLit ls cs else none

/-- Consume `\s*` (regex whitespace class). -/
def skipWsL (cs : List Char) : List Char := cs.dropWhile isPyWs

/-- Consume `\d+` (greedy); `none` when no digit is present. -/
def takeDigits1 (cs : List Char) : Option (String × List Char) :=
  let ds := cs.takeWhile Char.isDigit
  if ds.isEmpty then none else some (⟨ds⟩, cs.dropWhile Char.isDigit)

/-- Lazy `(?P<just>.*?)"\s*\}` scan: the shortest prefix followed by a
quote, optional whitespace, and a closing brace. -/
def lazyJustClose : List Char → List Char → Option (String × List Char)
  | [], _ => none
  | c :: rest, acc =>
    if c == '"' then
      match skipWsL rest with
      | '\x7d' :: rest2 => some (⟨acc.reverse⟩, rest2)
      | _ => lazyJustClose rest (c :: acc)
    else lazyJustClose rest (c :: acc)

/-- Match `\{\s*"codigo":\s*"(\d+)",\s*"justificacion":\s*"(.*?)"\s*\}`
anchored at the head of the input; yields code, justification, rest. -/
def matchCompleteBlockAt (cs : List Char) : Option (String × String × List Char) :=
  match cs with
  | '\x7b' :: cs1 =>
    match matchLit "\"codigo\":".toList (skipWsL cs1) with
    | none => none
    | some cs3 =>
      match skipWsL cs3 with
      | '"' :: cs5 =>
        match takeDigits1 cs5 with
        | none => none
        | some (code, cs6) =>
          match matchLit "\",".toList cs6 with
          | none => none
          | some cs7 =>
            match matchLit "\"justificacion\":".toList (skipWsL cs7) with
            | none => none
            | some cs9 =>
              match skipWsL cs9 with
              | '"' :: cs11 =>
                match lazyJustClose cs11 [] with
                | some (just, rest) => some (code, just, rest)
                | none => none
              | _ => none
      | _ => none
  | _ => none

/-- `finditer` of the complete-block regex: non-overlapping matches, left to
right. Fuel is the input length (each match consumes at least one char). -/
def findCompleteBlocksAux : Nat → List Char → List (String × String)
  | 0, _ => []
  | fuel + 1, cs =>
    match cs with
    | [] => []
    | _ :: cs' =>
      match matchCompleteBlockAt cs with
      | some (code, just, rest) => (code, just) :: findCompleteBlocksAux fuel rest
      | none => findCompleteBlocksAux fuel cs'

/-- All complete `{"codigo": "...", "justificacion": "..."}` blocks
of `raw` in match order (parser tier 2). -/
def findCompleteBlocks (raw : String) : List (String × String) :=
  findCompleteBlocksAux raw.toList.length raw.toList

/-- Match `\{\s*"codigo":\s*"(\d+)",\s*"justificacion":\s*"(.*)` anchored at
the head: a truncated trailing block; the greedy tail takes everything. -/
def matchTruncadoAt (cs : List Char) : Option (String × String) :=
  match cs with
  | '\x7b' :: cs1 =>
    match matchLit "\"codigo\":".toList (skipWsL cs1) with
    | none => none
    | some cs3 =>
      match skipWsL cs3 with
      | '"' :: cs5 =>
        match takeDigits1 cs5 with
        | none => none
        | some (code, cs6) =>
          match matchLit "\",".toList cs6 with
          | none => none
          | some cs7 =>
            match matchLit "\"justificacion\":".toList (skipWsL cs7) with
            | none => none
            | some cs9 =>
              match skipWsL cs9 with
              | '"' :: cs11 => some (code, ⟨cs11⟩)
              | _ => none
      | _ => none
  | _ => none

/-- `re.search` of the truncated-block regex: leftmost match. -/
def searchTruncado : List Char → Option (String × String)
  | [] => none
  | c :: cs =>
    match matchTruncadoAt (c :: cs) with
    | some r => some r
    | none => searchTruncado cs

/-- `raw.rfind('\x7b')`: the suffix starting at the last opening brace. -/
def suffixFromLastBrace : List Char → Option (List Char)
  | [] => none
  | c :: cs =>
    match suffixFromLastBrace cs with
    | some r => some r
    | none => if c == '\x7b' then some (c :: cs) else none

/-- Lazy `\[.*?\]\s*\}` continuation: shortest span up to a bracket that
closes the array, optional whitespace, closing brace. -/
def lazyToCloseBracket : List Char → Option (List Char)
  | [] => none
  | c :: cs =>
    if c == ']' then
      match skipWsL cs with
      | '\x7d' :: rest => some rest
      | _ => lazyToCloseBracket cs
    else lazyToCloseBracket cs

/-- Tail `"clasificaciones":\s*\[.*?\]\s*\}` anchored at the head. -/
def clasifTailAt (cs : List Char) : Option (List Char) :=
  match matchLit "\"clasificaciones\":".toList cs with
  | none => none
  | some cs1 =>
    match skipWsL cs1 with
    | '[' :: cs2 => lazyToCloseBracket cs2
    | _ => none

/-- Lazy `.*?` before the `clasificaciones` tail: nearest position where the
tail matches. -/
def lazyScanClasif : List Char → Option (List Char)
  | [] => none
  | c :: cs =>
    match clasifTailAt (c :: cs) with
    | some rest => some rest
    | none => lazyScanClasif cs

/-- `re.search(r'\{.*?"clasificaciones":\s*\[.*?\]\s*\}', s, re.DOTALL)`:
the leftmost match, returned as its `group(0)` text. -/
def searchClasifBlock : List Char → Option String
  | [] => none
  | c :: cs =>
    if c == '\x7b' then
      match lazyScanClasif cs with
      | some rest =>
        some ⟨(c :: cs).take ((c :: cs).length - rest.length)⟩
      | none => searchClasifBlock cs
    else searchClasifBlock cs

/-- Match `"codigo":\s*"(\d+)"` anchored at the head. -/
def codigoAt (cs : List Char) : Option (String × List Char) :=
  match matchLit "\"codigo\":".toList cs with
  | none => none
  | some cs1 =>
    match skipWsL cs1 with
    | '"' :: cs2 =>
      match takeDigits1 cs2 with
      | none => none
      | some (code, cs3) =>
        match cs3 with
        | '"' :: rest => some (code, rest)
        | _ => none
    | _ => none

/-- `re.findall(r'"codigo":\s*"(\d+)"', s)`: all non-overlapping matches. -/
def findCodigoMatchesAux : Nat → List Char → List String
  | 0, _ => []
  | fuel + 1, cs =>
    match cs with
    | [] => []
    | _ :: cs' =>
      match codigoAt cs with
      | some (code, rest) => code :: findCodigoMatchesAux fuel rest
      | none => findCodigoMatchesAux fuel cs'

/-- All `"codigo": "<digits>"` captures of `s` in match order. -/
def findCodigoMatches (s : String) : List String :=
  findCodigoMatchesAux s.toList.length s.toList

/-! ### Response Parser — `ResultProcessor.parse_detailed_predictions`
(src/scripts/5_lotes_processor.py, lines 174-213) -/

/-- Tier-1 item loop: for each element of `clasificaciones`, if it has both
`codigo` and `justificacion` keys, store `str(item["codigo"]) ↦
item["justificacion"]` (short-circuit `and`, Python `in`/subscription
exceptions propagate). -/
def tier1Loop : List (String × Json) → List Json → Except PyExn (List (String × Json))
  | details, [] => .ok details
  | details, item :: items => do
    let hasCod ← pyIn "codigo" item
    if hasCod then do
      let hasJust ← pyIn "justificacion" item
      if hasJust then do
        let cod ← pySubscript item (.str "codigo")
        let just ← pySubscript item (.str "justificacion")
        tier1Loop (dictInsert details (pyStr cod) just) items
      else tier1Loop details items
    else tier1Loop details items

/-- The mapping accumulated by tier 2 from the complete-block matches. -/
def tier2Details (raw : String) : List (String × Json) :=
  (findCompleteBlocks raw).foldl (fun d p => dictInsert d p.1 (Json.str p.2)) []

/-- Tiers 2 and 3 of `parse_detailed_predictions`: complete-block regex
matches, then at most one truncated trailing block (only for a code not
already present), its justification suffixed with the truncation marker. -/
def tiers23 (raw : String) : List (String × Json) :=
  let cs := raw.toList
  let details := tier2Details raw
  match suffixFromLastBrace cs with
  | none => details
  | some suffix =>
    match searchTruncado suffix with
    | none => details
    | some (code, just) =>
      if (dictLookup details code).isSome then details
      else dictInsert details code (.str (just ++ " [TRUNCADO]"))

/-- `ResultProcessor.parse_detailed_predictions`: tiered extraction of
`code ↦ justification` from a raw model response.  Falsy input returns the
empty mapping; a strict JSON parse carrying a `clasificaciones` key returns
the tier-1 mapping; otherwise the regex tiers run.  A non-string truthy
input raises `TypeError` inside `json.loads`. -/
def parse_detailed_predictions (raw_response : Json) : Except PyExn (List (String × Json)) :=
  if pyFalsy raw_response then .ok []
  else
    match raw_response with
    | .str raw =>
      match jsonParse raw with
      | some parsed => do
        let hasClas ← pyIn "clasificaciones" parsed
        if hasClas then do
          let clasVal ← pyGetDefault parsed "clasificaciones" (.arr [])
          let items ← pyIter clasVal
          tier1Loop [] items
        else .ok (tiers23 raw)
      | none => .ok (tiers23 raw)
    | _ => .error .typeError

/-! ### Request Executor response parsing —
`AsyncAPIDelitoValidator.parse_response`
(src/scripts/4_Api_delito_validador.py, lines 116-142) -/

/-- Codes extracted from a `clasificaciones` list in `parse_response`:
`sorted([str(item.get("codigo", "")) for item in clasificaciones
if isinstance(item, dict) and item.get("codigo")])`. -/
def parseResponseCodes (items : List Json) : List String :=
  sortStrings (items.filterMap (fun item =>
    match item with
    | .obj fs =>
      match dictLookup fs "codigo" with
      | some v => if pyFalsy v then none else some (pyStr v)
      | none => none
    | _ => none))

/-- `AsyncAPIDelitoValidator.parse_response`: extract the code list and the
reasoning from a raw response; a strict parse first, then a regex-scoped
JSON fragment, then bare `codigo` captures, then an error placeholder.
Exceptions outside the guarded regions propagate (e.g. `.get` on a
non-dict strict-parse result). -/
def parse_response (response : String) : Except PyExn (List String × Json) :=
  match jsonParse (pyStrip response) with
  | some data => do
    let raz ← pyGetDefault data "razonamiento" (.str "No se encontró razonamiento.")
    let clas ← pyGetDefault data "clasificaciones" (.arr [])
    let items ← pyIter clas
    .ok (parseResponseCodes items, raz)
  | none =>
    -- second tier, guarded by a bare `except: pass`
    let tier2 : Except PyExn (Option (List String × Json)) := do
      match searchClasifBlock response.toList with
      | none => pure none
      | some group0 =>
        match jsonParse group0 with
        | none => throw .jsonDecodeError
        | some data => do
          let raz ← pyGetDefault data "razonamiento" (.str "Razonamiento extraído parcialmente.")
          let clas ← pyGetDefault data "clasificaciones" (.arr [])
          let items ← pyIter clas
          pure (some (parseResponseCodes items, raz))
    match tier2 with
    | .ok (some r) => .ok r
    | _ =>
      let codes := findCodigoMatches response
      if codes.isEmpty then
        .ok ([], .str ("Error de parseo - respuesta no válida: " ++
          ⟨response.toList.take 100⟩ ++ "..."))
      else
        .ok (sortStrings codes.eraseDups, .str "Códigos extraídos con regex.")

/-! ### Request Executor — `AsyncAPIDelitoValidator.generate_prediction_api`
(src/scripts/4_Api_delito_validador.py, lines 51-114)

The remote endpoint is an oracle `endpoint : Nat → ApiOutcome` giving, per
attempt index, either the response text or the exception raised
(`type(e).__name__` and `str(e)`).  `random.uniform(0, attempt * 0.5)` is an
oracle `jitter : Nat → ℚ`.  Durations are rationals (seconds). -/

/-- The configuration fields `config.api` that the executor reads. -/
structure ApiConfig where
  max_retries : Nat
  timeout : ℚ
  retry_delay : ℚ
deriving DecidableEq, Repr

/-- Outcome of one endpoint call: the raw content, or the raised
exception's type name and message. -/
inductive ApiOutcome where
  | ok (content : String)
  | exn (errorType : String) (errorMsg : String)
deriving DecidableEq, Repr

/-- What one loop iteration did: its attempt index, the request timeout it
used, and the wait it slept before the next attempt (`none` on return). -/
structure AttemptRecord where
  idx : Nat
  timeoutUsed : ℚ
  waitedAfter : Option ℚ
deriving DecidableEq, Repr

/-- `"RateLimitError" in error_type or "rate_limit" in error_str`. -/
def isRateLimitError (errorType errStrLower : String) : Bool :=
  strContains errorType "RateLimitError" || strContains errStrLower "rate_limit"

/-- `"timeout" in error_str or "timed out" in error_str`. -/
def isTimeoutError (errStrLower : String) : Bool :=
  strContains errStrLower "timeout" || strContains errStrLower "timed out"

/-- `"connection" in error_str or "network" in error_str`. -/
def isNetworkError (errStrLower : String) : Bool :=
  strContains errStrLower "connection" || strContains errStrLower "network"

/-- The wait slept after a non-final failed attempt, per the error class
(rate limit first, then timeout, then network, else the plain backoff). -/
def retryWait (cfg : ApiConfig) (attempt : Nat) (errorType errorMsg : String)
    (jitter : ℚ) : ℚ :=
  let base_delay : ℚ := 2
  let backoff : ℚ := base_delay ^ (attempt + 1)
  let wait_time : ℚ := backoff + jitter
  let error_str := pyLower errorMsg
  if isRateLimitError errorType error_str then cfg.retry_delay + attempt * 15
  else if isTimeoutError error_str then wait_time
  else if isNetworkError error_str then backoff * 2 + jitter
  else wait_time

/-- Sentinel returned after the last retry fails (line 112). -/
def maxRetriesSentinel : String :=
  "\x7b\"razonamiento\": \"ERROR: Máximo de reintentos alcanzado después de múltiples intentos con timeout incremental\", \"clasificaciones\": []\x7d"

/-- Sentinel returned if the loop body never returns (line 114). -/
def apiCallSentinel : String :=
  "\x7b\"razonamiento\": \"ERROR en llamada API\", \"clasificaciones\": []\x7d"

/-- The retry loop `for attempt in range(max_retries)`, carried by the
number of remaining iterations; returns the result string and the trace of
attempts made. -/
def generateLoop (cfg : ApiConfig) (endpoint : Nat → ApiOutcome) (jitter : Nat → ℚ) :
    Nat → Nat → String × List AttemptRecord
  | _, 0 => (apiCallSentinel, [])
  | attempt, remaining + 1 =>
    let current_timeout := cfg.timeout + attempt * 30
    match endpoint attempt with
    | .ok content => (pyStrip content, [⟨attempt, current_timeout, none⟩])
    | .exn errorType errorMsg =>
      if attempt < cfg.max_retries - 1 then
        let w := retryWait cfg attempt errorType errorMsg (jitter attempt)
        let r := generateLoop cfg endpoint jitter (attempt + 1) remaining
        (r.1, ⟨attempt, current_timeout, some w⟩ :: r.2)
      else
        (maxRetriesSentinel, [⟨attempt, current_timeout, none⟩])

/-- `AsyncAPIDelitoValidator.generate_prediction_api`: result text and
attempt trace. -/
def generate_prediction_api (cfg : ApiConfig) (endpoint : Nat → ApiOutcome)
    (jitter : Nat → ℚ) : String × List AttemptRecord :=
  generateLoop cfg endpoint jitter 0 cfg.max_retries

/-! ### Batch processing — `AsyncAPIDelitoValidator.process_single_case`,
`process_batch_async`, `save_batch_results`
(src/scripts/4_Api_delito_validador.py, lines 144-222) -/

/-- `json.dumps` string quoting (`ensure_ascii=False`): escape the quote,
the backslash and common control characters; other code points verbatim. -/
def jsonDumpsStr (s : String) : String :=
  let body := s.toList.foldr (fun c acc =>
    if c == '"' then '\\' :: '"' :: acc
    else if c == '\\' then '\\' :: '\\' :: acc
    else if c == '\n' then '\\' :: 'n' :: acc
    else if c == '\r' then '\\' :: 'r' :: acc
    else if c == '\t' then '\\' :: 't' :: acc
    else if c == '\x08' then '\\' :: 'b' :: acc
    else if c == '\x0c' then '\\' :: 'f' :: acc
    else c :: acc) []
  ⟨'"' :: body ++ ['"']⟩

mutual
/-- Python `json.dumps(v, ensure_ascii=False)` with the default
separators.  Non-integer numbers keep their carried lexeme. -/
def jsonDumps : Json → String
  | .null => "null"
  | .bool true => "true"
  | .bool false => "false"
  | .num n => toString n
  | .numOther lexeme => lexeme
  | .str s => jsonDumpsStr s
  | .arr xs => "[" ++ jsonDumpsElems xs ++ "]"
  | .obj fs => "\x7b" ++ jsonDumpsFields fs ++ "\x7d"

/-- Comma-separated dumps of array elements. -/
def jsonDumpsElems : List Json → String
  | [] => ""
  | [x] => jsonDumps x
  | x :: y :: xs => jsonDumps x ++ ", " ++ jsonDumpsElems (y :: xs)

/-- Comma-separated `"key": value` dumps of object members. -/
def jsonDumpsFields : List (String × Json) → String
  | [] => ""
  | [(k, v)] => jsonDumpsStr k ++ ": " ++ jsonDumps v
  | (k, v) :: f :: fs => jsonDumpsStr k ++ ": " ++ jsonDumps v ++ ", " ++ jsonDumpsFields (f :: fs)
end

/-- The defensive `codigos_esperados` normalisation in
`process_single_case` (lines 150-171): wrap a non-blank string, keep
lists, drop other shapes; per element keep numbers as `str(int(c))`
(plain-decimal truncation for non-integers; exponent lexemes and NaN are
outside the model), non-blank strings stripped, and dicts via their
truthy `codigo` entry; then dedupe and sort. -/
def normalizeExpectedCodes (codigos_raw : Json) : List String :=
  let lst : List Json :=
    match codigos_raw with
    | .str s => if pyStrip s == "" then [] else [.str s]
    | .arr xs => xs
    | _ => []
  let expected : List String := lst.filterMap (fun c =>
    match c with
    | .num n => some (toString n)
    | .numOther lexeme => some ⟨lexeme.toList.takeWhile (fun ch => ch == '-' || ch.isDigit)⟩
    | .bool b => some (if b then "1" else "0")
    | .str s => if pyStrip s == "" then none else some (pyStrip s)
    | .obj fs =>
      match dictLookup fs "codigo" with
      | some v =>
        if v == .null then none
        else if pyStrip (pyStr v) == "" then none
        else some (pyStrip (pyStr v))
      | none => none
    | _ => none)
  sortStrings expected.eraseDups

/-- `AsyncAPIDelitoValidator.process_single_case`.  The knowledge base's
`get_validation_prompt` is an oracle that may raise (`.error msg` carries
`str(e)`); the endpoint and jitter oracles feed `generate_prediction_api`;
`exnMsg` renders a propagating parse exception as Python's `str(e)`.
Every exception inside the body is caught and turned into the
failed-sentinel record (lines 189-204); the function itself never raises. -/
def process_single_case (kbPrompt : Json → Except String (String × String))
    (cfg : ApiConfig) (endpoint : Nat → ApiOutcome) (jitter : Nat → ℚ)
    (exnMsg : PyExn → String) (timestamp : String)
    (case_data : List (String × Json)) : List (String × Json) :=
  let case_id := (dictLookup case_data "id").getD (.str "unknown")
  let observacion := (dictLookup case_data "observacion").getD (.str "")
  let codigos_raw := (dictLookup case_data "codigos_esperados").getD (.arr [])
  let expected_codes := normalizeExpectedCodes codigos_raw
  let ids_delito_originales := (dictLookup case_data "ids_delito_originales").getD (.arr [])
  let errRecord (msg : String) : List (String × Json) :=
    [("id", case_id),
     ("observacion", observacion),
     ("expected_codes", codigos_raw),
     ("ids_delito_originales", ids_delito_originales),
     ("predicted_codes", .arr []),
     ("razonamiento_modelo", .str ("Error en procesamiento: " ++ msg)),
     ("raw_response", .str ""),
     ("timestamp", .str timestamp),
     ("error", .bool true)]
  match kbPrompt observacion with
  | .error e => errRecord e
  | .ok _prompts =>
    let raw_response := (generate_prediction_api cfg endpoint jitter).1
    match parse_response raw_response with
    | .error ex => errRecord (exnMsg ex)
    | .ok (predicted_codes, razonamiento) =>
      [("id", case_id),
       ("observacion", observacion),
       ("expected_codes", .arr (expected_codes.map .str)),
       ("ids_delito_originales", ids_delito_originales),
       ("predicted_codes", .arr (predicted_codes.map .str)),
       ("razonamiento_modelo", razonamiento),
       ("raw_response", .str raw_response),
       ("timestamp", .str timestamp)]

/-- Case-wise loop of `process_batch_async`, indexed so that each task has
its own endpoint/jitter oracles (tasks share no retry state). -/
def processBatchAux (kbPrompt : Json → Except String (String × String))
    (cfg : ApiConfig) (endpoints : Nat → Nat → ApiOutcome)
    (jitters : Nat → Nat → ℚ) (exnMsg : PyExn → String) (timestamp : String) :
    Nat → List (List (String × Json)) → List (List (String × Json))
  | _, [] => []
  | i, case_data :: rest =>
    process_single_case kbPrompt cfg (endpoints i) (jitters i) exnMsg timestamp case_data ::
      processBatchAux kbPrompt cfg endpoints jitters exnMsg timestamp (i + 1) rest

/-- `AsyncAPIDelitoValidator.process_batch_async`: one task per case,
results gathered in submission order (`tqdm_asyncio.gather` preserves
input order). -/
def process_batch_async (kbPrompt : Json → Except String (String × String))
    (cfg : ApiConfig) (endpoints : Nat → Nat → ApiOutcome)
    (jitters : Nat → Nat → ℚ) (exnMsg : PyExn → String) (timestamp : String)
    (batch_data : List (List (String × Json))) : List (List (String × Json)) :=
  processBatchAux kbPrompt cfg endpoints jitters exnMsg timestamp 0 batch_data

/-- `AsyncAPIDelitoValidator.save_batch_results`: the lines written to the
batch file, one `json.dumps` line per result. -/
def save_batch_results (results : List (List (String × Json))) : List String :=
  results.map (fun r => jsonDumps (.obj r))

/-! ### Consolidator — `ResultProcessor.find_batch_files` /
`load_batch_files` (src/scripts/5_lotes_processor.py, lines 44-116) -/

/-- `glob` filename matching, fuelled so the kernel can evaluate it (every
step shrinks pattern length + name length, so `p.length + n.length + 1`
fuel always suffices). -/
def globMatchAux : Nat → List Char → List Char → Bool
  | 0, _, _ => false
  | _ + 1, [], [] => true
  | _ + 1, [], _ :: _ => false
  | fuel + 1, '*' :: ps, [] => globMatchAux fuel ps []
  | fuel + 1, '*' :: ps, c :: cs =>
    globMatchAux fuel ps (c :: cs) || globMatchAux fuel ('*' :: ps) cs
  | _ + 1, _ :: _, [] => false
  | fuel + 1, p :: ps, c :: cs => p == c && globMatchAux fuel ps cs

/-- `glob` filename matching for the patterns used here (literals and `*`;
the patterns contain no `?` or `[...]`, and all start with a literal so
the hidden-file rule never applies). -/
def globMatch (p n : List Char) : Bool :=
  globMatchAux (p.length + n.length + 1) p n

/-- The four filename patterns, in the order the source tries them. -/
def batchFilePatterns : List String :=
  ["resultados_lote_*.jsonl", "resultados_*_lote_*.jsonl", "lote_*.jsonl", "batch_*.jsonl"]

/-- Does a filename match a pattern? -/
def matchesPattern (pat name : String) : Bool := globMatch pat.toList name.toList

/-- The pattern loop of `find_batch_files`: each pattern's matches are
collected, and the loop `break`s at the first pattern that found files. -/
def findFirstPattern (dirListing : List String) : List String → List String
  | [] => []
  | pat :: pats =>
    let found := dirListing.filter (matchesPattern pat)
    if found.isEmpty then findFirstPattern dirListing pats else found

/-- `ResultProcessor.find_batch_files` over a directory listing: the
sorted files of the first matching pattern, or the `FileNotFoundError`. -/
def find_batch_files (dirListing : List String) : Except String (List String) :=
  let files := findFirstPattern dirListing batchFilePatterns
  if files.isEmpty then .error "No se encontraron archivos de lotes"
  else .ok (sortStrings files)

/-- How `load_batch_files` treats one line of a batch file: JSON decode
error, generic parse error (a non-dict record raises on `in`/subscript/
`pop`), a record whose normalised id is falsy, or an id/record pair
(`case_id` renamed, `id_observacion` copied to `id`). -/
inductive LineOutcome where
  | jsonError
  | parseError
  | noId
  | record (id : Json) (rec : Json)
deriving DecidableEq, Repr

/-- Parse and id-normalise one line (lines 81-101 of the source). -/
def normalizeLineRecord (line : String) : LineOutcome :=
  match jsonParse (pyStrip line) with
  | none => .jsonError
  | some record =>
    match pyIn "id" record with
    | .error _ => .parseError
    | .ok true =>
      match pySubscript record (.str "id") with
      | .error _ => .parseError
      | .ok rid => if pyFalsy rid then .noId else .record rid record
    | .ok false =>
      match pyIn "case_id" record with
      | .error _ => .parseError
      | .ok true =>
        match record with
        | .obj fs =>
          let popped := dictPop fs "case_id"
          match popped.1 with
          | some rid =>
            if pyFalsy rid then .noId
            else .record rid (.obj (dictInsert popped.2 "id" rid))
          | none => .parseError
        | _ => .parseError
      | .ok false =>
        match pyIn "id_observacion" record with
        | .error _ => .parseError
        | .ok true =>
          match pySubscript record (.str "id_observacion") with
          | .error _ => .parseError
          | .ok rid =>
            match record with
            | .obj fs =>
              if pyFalsy rid then .noId
              else .record rid (.obj (dictInsert fs "id" rid))
            | _ => .parseError
        | .ok false => .noId

/-- The mutable state of `load_batch_files`: the unified map and the three
error counters. -/
structure LoadState where
  unified : List (Json × Json)
  json_decode_errors : Nat
  general_parse_errors : Nat
  skipped_no_id : Nat
deriving DecidableEq, Repr

/-- Process one line into the load state. -/
def loadLine (st : LoadState) (line : String) : LoadState :=
  match normalizeLineRecord line with
  | .jsonError => { st with json_decode_errors := st.json_decode_errors + 1 }
  | .parseError => { st with general_parse_errors := st.general_parse_errors + 1 }
  | .noId => { st with skipped_no_id := st.skipped_no_id + 1 }
  | .record rid rec => { st with unified := dictInsert st.unified rid rec }

/-- Process a file's lines in order. -/
def loadLines (st : LoadState) (lines : List String) : LoadState :=
  lines.foldl loadLine st

/-- The empty load state. -/
def initialLoadState : LoadState := ⟨[], 0, 0, 0⟩

/-- `ResultProcessor.load_batch_files` over a directory given as filename /
content-lines pairs: discover batch files, read them in sorted filename
order, and fold every line into the unified map (later records with a
repeated id overwrite earlier ones). -/
def load_batch_files (dir : List (String × List String)) : Except String LoadState :=
  match find_batch_files (dir.map (fun f => f.1)) with
  | .error e => .error e
  | .ok files =>
    .ok (files.foldl (fun st name => loadLines st ((dictLookup dir name).getD []))
      initialLoadState)

/-- The successful (id, record) insertions a list of lines performs, in
order. -/
def lineOps (lines : List String) : List (Json × Json) :=
  lines.filterMap (fun l =>
    match normalizeLineRecord l with
    | .record rid rec => some (rid, rec)
    | _ => none)

/-- Replay a list of key/value insertions on a dict. -/
def applyOps {α β : Type} [DecidableEq α] (m : List (α × β)) (ops : List (α × β)) :
    List (α × β) :=
  ops.foldl (fun m p => dictInsert m p.1 p.2) m

/-! ### Consolidator — `ResultProcessor.create_unnested_format`
(src/scripts/5_lotes_processor.py, lines 225-300) -/

/-- Set equality of two string lists (Python `set(a) != set(b)` negated). -/
def strSetEq (a b : List String) : Bool :=
  a.all (fun x => b.contains x) && b.all (fun x => a.contains x)

/-- `sorted(list(set(xs)))`. -/
def sortedSet (xs : List String) : List String := sortStrings xs.eraseDups

/-- The crime-id extraction of complex mode (lines 253-260):
`json.loads(ref_record["messages"][2]["content"]).get("ids_delito_originales", [])`,
where `JSONDecodeError`/`KeyError`/`IndexError` fall back to `[None]`,
other exceptions propagate, and a falsy result also becomes `[None]`. -/
def extractCrimeIds (ref_record : Json) : Except PyExn Json :=
  let attempt : Except PyExn Json := do
    let msgs ← pySubscript ref_record (.str "messages")
    let m2 ← pySubscript msgs (.num 2)
    let content ← pySubscript m2 (.str "content")
    let assistant_content ←
      match content with
      | .str s =>
        match jsonParse s with
        | some p => Except.ok p
        | none => Except.error PyExn.jsonDecodeError
      | _ => Except.error PyExn.typeError
    pyGetDefault assistant_content "ids_delito_originales" (.arr [])
  let crime_ids :=
    match attempt with
    | .error .jsonDecodeError => Except.ok (Json.arr [.null])
    | .error .keyError => Except.ok (Json.arr [.null])
    | .error .indexError => Except.ok (Json.arr [.null])
    | other => other
  match crime_ids with
  | .ok v => if pyFalsy v then .ok (.arr [.null]) else .ok v
  | e => e

/-- One flattened (desanidado) row. -/
def unnestedRow (id_delito_ia obs_id : Json) (unified_record : Json)
    (predicted_details : List (String × Json)) : Except PyExn (List (String × Json)) := do
  let observacion ← pyGetDefault unified_record "observacion" .null
  let expected ← pyGetDefault unified_record "expected_codes" (.arr [])
  let predicted ← pyGetDefault unified_record "predicted_codes" (.arr [])
  let razonamiento ← pyGetDefault unified_record "razonamiento_modelo" .null
  let timestamp ← pyGetDefault unified_record "timestamp" .null
  let perror ← pyGetDefault unified_record "error" (.bool false)
  .ok [("id_delito_ia", id_delito_ia),
       ("id_observacion", obs_id),
       ("observacion", observacion),
       ("expected_codes_obs", expected),
       ("predicted_codes_obs", predicted),
       ("razonamiento_general_modelo", razonamiento),
       ("predicciones_detalladas_modelo", .obj predicted_details),
       ("timestamp", timestamp),
       ("processing_error", perror)]

/-- Rows and parsing-issue entries contributed by one unified entry.
An id with no (or a falsy) reference entry contributes nothing — the
`continue` at line 231 runs before anything else. -/
def processUnifiedEntry (mode : String) (reference : List (Json × Json))
    (entry : Json × Json) :
    Except PyExn (List (List (String × Json)) × List (List (String × Json))) :=
  let obs_id := entry.1
  let unified_record := entry.2
  match dictLookup reference obs_id with
  | none => .ok ([], [])
  | some ref_record =>
    if pyFalsy ref_record then .ok ([], [])
    else do
      let raw ← pyGetDefault unified_record "raw_response" (.str "")
      let predicted_details ← parse_detailed_predictions raw
      let predicted_from_details := predicted_details.map (fun p => p.1)
      let pcodes ← pyGetDefault unified_record "predicted_codes" (.arr [])
      let plistJ ← pyIter pcodes
      let predicted_from_list := plistJ.map pyStr
      let issues :=
        if strSetEq predicted_from_details predicted_from_list then []
        else [[("id", obs_id),
               ("codes_list", .arr ((sortedSet predicted_from_list).map .str)),
               ("codes_parsed", .arr ((sortedSet predicted_from_details).map .str))]]
      if mode == "complex" then do
        let crime_ids_json ← extractCrimeIds ref_record
        let crime_ids ← pyIter crime_ids_json
        let rows ← crime_ids.mapM (fun cid =>
          unnestedRow cid obs_id unified_record predicted_details)
        .ok (rows, issues)
      else do
        let row ← unnestedRow obs_id obs_id unified_record predicted_details
        .ok ([row], issues)

/-- `ResultProcessor.create_unnested_format`: the flattened rows and the
parsing-issue entries, accumulated over the unified map in order. -/
def create_unnested_format (mode : String) (unified : List (Json × Json))
    (reference : List (Json × Json)) :
    Except PyExn (List (List (String × Json)) × List (List (String × Json))) :=
  match unified with
  | [] => .ok ([], [])
  | entry :: rest => do
    let (rows, issues) ← processUnifiedEntry mode reference entry
    let (rows', issues') ← create_unnested_format mode rest reference
    .ok (rows ++ rows', issues ++ issues')

/-! ### Error Classifier — `ErrorAnalyzer.classify_record`
(src/scripts/6_Error_results.py, lines 38-64) -/

/-- The three booleans `classify_record` evaluates: the fallback marker in
the lowered reasoning, raw response parses as JSON, and a truthy
`clasificaciones` member.  `.lower()` on a non-string reasoning raises
`AttributeError`; `json.loads` of a truthy non-string raw response raises
`TypeError`; `in` on a parsed number raises `TypeError`. -/
def classifyRecordBools (record : Json) : Except PyExn (Bool × Bool × Bool) := do
  let razonamiento ← pyGetDefault record "razonamiento_modelo" (.str "")
  let raw_response ← pyGetDefault record "raw_response" (.str "")
  let razLower ←
    match razonamiento with
    | .str s => Except.ok (pyLower s)
    | _ => Except.error PyExn.attributeError
  let is_fallback := strContains razLower "fallback"
  let vh : Except PyExn (Bool × Bool) :=
    if pyFalsy raw_response then .ok (false, false)
    else
      match raw_response with
      | .str s =>
        match jsonParse s with
        | none => .ok (false, false)
        | some parsed => do
          let hasKey ← pyIn "clasificaciones" parsed
          if hasKey then do
            let v ← pySubscript parsed (.str "clasificaciones")
            Except.ok (true, !pyFalsy v)
          else Except.ok (true, false)
      | _ => .error .typeError
  let (is_raw_valid_json, has_clasificaciones) ← vh
  .ok (is_fallback, is_raw_valid_json, has_clasificaciones)

/-- The `if`/`elif` chain of `classify_record` (lines 55-64). -/
def classifyFrom (is_fallback is_raw_valid_json has_clasificaciones : Bool) : String :=
  if !is_fallback && is_raw_valid_json && has_clasificaciones then "Formato A: Perfecto"
  else if is_fallback && is_raw_valid_json && has_clasificaciones then
    "Formato B: Fallback Recuperable"
  else if is_fallback && !is_raw_valid_json then "Formato C: Fallback Truncado"
  else if !is_fallback && (!is_raw_valid_json || !has_clasificaciones) then
    "Formato D: Inconsistente"
  else "Formato E: Otro"

/-- `ErrorAnalyzer.classify_record`. -/
def classify_record (record : Json) : Except PyExn String := do
  let (f, v, h) ← classifyRecordBools record
  .ok (classifyFrom f v h)

/-! ### Orchestrator status — `run_validation_async`
(src/scripts/4_Api_delito_validador.py, lines 254-392)

The function's boolean result as a function of the input case list and of
the event that ends the run: a `KeyboardInterrupt` returns `False`
(line 386), any other exception returns `False` (line 392), and a normal
run returns `True` both when the case list is empty (line 298, "completó,
aunque sin datos") and when all batches complete (line 381). -/

/-- How a run ends: normally, by operator interrupt, or by an exception. -/
inductive RunEvent where
  | normal
  | keyboardInterrupt
  | exception
deriving DecidableEq, Repr

/-- The boolean returned by `run_validation_async`. -/
def run_validation_async {α : Type} (data_to_process : List α) : RunEvent → Bool
  | .keyboardInterrupt => false
  | .exception => false
  | .normal =>
    if data_to_process.isEmpty then
      true  -- line 298: "No hay datos para procesar" → return True
    else
      true  -- line 381: processing completed → return True

/-! ### Helper lemmas on dict insertion and replayed insertions -/

theorem dictLookup_dictInsert_self {α β : Type} [DecidableEq α]
    (m : List (α × β)) (k : α) (v : β) :
    dictLookup (dictInsert m k v) k = some v := by
  induction m with
  | nil => simp [dictInsert, dictLookup]
  | cons p m ih =>
    obtain ⟨k', v'⟩ := p
    by_cases h : k' = k
    · simp [dictInsert, dictLookup, h]
    · simp [dictInsert, dictLookup, h, ih]

theorem dictLookup_dictInsert_ne {α β : Type} [DecidableEq α]
    (m : List (α × β)) (k k' : α) (v : β) (h : k' ≠ k) :
    dictLookup (dictInsert m k v) k' = dictLookup m k' := by
  have h' : ¬(k = k') := fun e => h e.symm
  induction m with
  | nil => simp [dictInsert, dictLookup, h']
  | cons p m ih =>
    obtain ⟨ka, va⟩ := p
    by_cases hk : ka = k
    · subst hk; simp [dictInsert, dictLookup, h']
    · simp [dictInsert, dictLookup, hk, ih]

theorem dictLookup_dictInsert_isSome {α β : Type} [DecidableEq α]
    (m : List (α × β)) (k k' : α) (v : β)
    (h : (dictLookup m k').isSome) :
    (dictLookup (dictInsert m k v) k').isSome := by
  by_cases hk : k' = k
  · subst hk; simp [dictLookup_dictInsert_self]
  · rw [dictLookup_dictInsert_ne m k k' v hk]; exact h

theorem applyOps_append {α β : Type} [DecidableEq α]
    (m : List (α × β)) (a b : List (α × β)) :
    applyOps m (a ++ b) = applyOps (applyOps m a) b := by
  simp [applyOps, List.foldl_append]

theorem applyOps_lookup_skip {α β : Type} [DecidableEq α]
    (ops : List (α × β)) (k : α) (h : ∀ p ∈ ops, p.1 ≠ k) :
    ∀ m, dictLookup (applyOps m ops) k = dictLookup m k := by
  induction ops with
  | nil => intro m; simp [applyOps]
  | cons p ops ih =>
    intro m
    have hp : p.1 ≠ k := h p (List.mem_cons_self p ops)
    have hrest : ∀ q ∈ ops, q.1 ≠ k := fun q hq => h q (List.mem_cons_of_mem p hq)
    show dictLookup (applyOps (dictInsert m p.1 p.2) ops) k = dictLookup m k
    rw [ih hrest]
    exact dictLookup_dictInsert_ne m p.1 k p.2 (fun e => hp e.symm)

theorem applyOps_lookup_isSome {α β : Type} [DecidableEq α]
    (ops : List (α × β)) (k : α) (h : ∃ v, (k, v) ∈ ops) :
    ∀ m, (dictLookup (applyOps m ops) k).isSome := by
  induction ops with
  | nil => rcases h with ⟨v, hv⟩; simp at hv
  | cons p ops ih =>
    intro m
    rcases h with ⟨v, hv⟩
    rcases List.mem_cons.mp hv with he | hm
    · subst he
      show (dictLookup (applyOps (dictInsert m k v) ops) k).isSome
      by_cases h2 : ∃ w, (k, w) ∈ ops
      · exact ih h2 (dictInsert m k v)
      · have hskip : ∀ q ∈ ops, q.1 ≠ k := by
          intro q hq he
          apply h2
          refine ⟨q.2, ?_⟩
          have hqe : (k, q.2) = q := by rw [← he]
          rw [hqe]
          exact hq
        rw [applyOps_lookup_skip ops k hskip]
        simp [dictLookup_dictInsert_self]
    · exact ih ⟨v, hm⟩ (dictInsert m p.1 p.2)

theorem applyOps_last_wins {α β : Type} [DecidableEq α]
    (m pre post : List (α × β)) (k : α) (v : β) (h : ∀ p ∈ post, p.1 ≠ k) :
    dictLookup (applyOps m (pre ++ (k, v) :: post)) k = some v := by
  rw [applyOps_append]
  show dictLookup (applyOps (applyOps (applyOps m pre) [(k, v)]) post) k = some v
  rw [applyOps_lookup_skip post k h]
  show dictLookup (dictInsert (applyOps m pre) k v) k = some v
  exact dictLookup_dictInsert_self _ k v

theorem loadLines_unified (lines : List String) :
    ∀ st : LoadState, (loadLines st lines).unified = applyOps st.unified (lineOps lines) := by
  induction lines with
  | nil => intro st; simp [loadLines, lineOps, applyOps]
  | cons l lines ih =>
    intro st
    show (loadLines (loadLine st l) lines).unified = _
    rw [ih]
    cases h : normalizeLineRecord l with
    | record rid rec =>
      simp [loadLine, h, lineOps, applyOps, List.filterMap_cons]
    | jsonError => simp [loadLine, h, lineOps, applyOps, List.filterMap_cons]
    | parseError => simp [loadLine, h, lineOps, applyOps, List.filterMap_cons]
    | noId => simp [loadLine, h, lineOps, applyOps, List.filterMap_cons]

/-- The insertions the sorted file list performs, file by file. -/
def filesOps (dir : List (String × List String)) : List String → List (Json × Json)
  | [] => []
  | f :: fs => lineOps ((dictLookup dir f).getD []) ++ filesOps dir fs

theorem filesOps_append (dir : List (String × List String)) (a b : List String) :
    filesOps dir (a ++ b) = filesOps dir a ++ filesOps dir b := by
  induction a with
  | nil => simp [filesOps]
  | cons f a ih => simp [filesOps, ih]

theorem loadFold_unified (dir : List (String × List String)) (files : List String) :
    ∀ st : LoadState,
      (files.foldl (fun st name => loadLines st ((dictLookup dir name).getD [])) st).unified =
        applyOps st.unified (filesOps dir files) := by
  induction files with
  | nil => intro st; simp [filesOps, applyOps]
  | cons f files ih =>
    intro st
    show (files.foldl _ (loadLines st ((dictLookup dir f).getD []))).unified = _
    rw [ih, loadLines_unified, filesOps, applyOps_append]

theorem load_batch_files_unified (dir : List (String × List String))
    (files : List String) (st : LoadState)
    (hfind : find_batch_files (dir.map (fun f => f.1)) = .ok files)
    (hload : load_batch_files dir = .ok st) :
    st.unified = applyOps [] (filesOps dir files) := by
  unfold load_batch_files at hload
  rw [hfind] at hload
  have : (files.foldl (fun st name => loadLines st ((dictLookup dir name).getD []))
      initialLoadState) = st := by
    injection hload
  rw [← this, loadFold_unified]
  rfl

theorem mem_filesOps_exists (dir : List (String × List String)) :
    ∀ (fs : List String) (p : Json × Json), p ∈ filesOps dir fs →
      ∃ g ∈ fs, p ∈ lineOps ((dictLookup dir g).getD []) := by
  intro fs
  induction fs with
  | nil => intro p hp; simp [filesOps] at hp
  | cons g gs ih =>
    intro p hp
    rcases List.mem_append.mp hp with hg | hgs
    · exact ⟨g, List.mem_cons_self g gs, hg⟩
    · obtain ⟨g2, hg2, hp2⟩ := ih p hgs
      exact ⟨g2, List.mem_cons_of_mem g hg2, hp2⟩

theorem mem_filesOps (dir : List (String × List String)) (files : List String)
    (name : String) (hname : name ∈ files) (p : Json × Json)
    (hp : p ∈ lineOps ((dictLookup dir name).getD [])) :
    p ∈ filesOps dir files := by
  induction files with
  | nil => simp at hname
  | cons f fs ih =>
    rcases List.mem_cons.mp hname with he | hm
    · subst he
      exact List.mem_append_left _ hp
    · exact List.mem_append_right _ (ih hm)

/-! ## Claim theorems -/

/-- C2: `classify_record` implements the five-class truth table over the
three booleans (`is_fallback`, `is_valid_json`, `has_items`): not-fallback ∧
valid ∧ has-items yields Perfect; fallback ∧ valid ∧ has-items yields
FallbackRecoverable; fallback ∧ not-valid yields FallbackTruncated
regardless of has-items; not-fallback ∧ (not-valid ∨ not-has-items) yields
Inconsistent; the remaining combination yields Other. -/
theorem classify_record_truth_table (record : Json) (f v h : Bool)
    (hb : classifyRecordBools record = .ok (f, v, h)) :
    (f = false → v = true → h = true →
      classify_record record = .ok "Formato A: Perfecto") ∧
    (f = true → v = true → h = true →
      classify_record record = .ok "Formato B: Fallback Recuperable") ∧
    (f = true → v = false →
      classify_record record = .ok "Formato C: Fallback Truncado") ∧
    (f = false → (v = false ∨ h = false) →
      classify_record record = .ok "Formato D: Inconsistente") ∧
    (f = true → v = true → h = false →
      classify_record record = .ok "Formato E: Otro") := by
  have hcr : classify_record record = .ok (classifyFrom f v h) := by
    unfold classify_record
    rw [hb]
    rfl
  cases f <;> cases v <;> cases h <;> simp [hcr, classifyFrom]

/-- C2 witness: a record whose reasoning has no fallback marker and whose
raw response is valid JSON with a truthy `clasificaciones` is Perfect. -/
theorem classify_record_truth_table_witness :
    classifyRecordBools (.obj [("razonamiento_modelo", .str "ok"),
        ("raw_response", .str "\x7b\"clasificaciones\": [1]\x7d")]) =
      .ok (false, true, true) ∧
    classify_record (.obj [("razonamiento_modelo", .str "ok"),
        ("raw_response", .str "\x7b\"clasificaciones\": [1]\x7d")]) =
      .ok "Formato A: Perfecto" :=
  ⟨by decide,
   (classify_record_truth_table _ false true true (by decide)).1 rfl rfl rfl⟩

/-- C5: on the truncated raw input `{"codigo": "9", "justificacion": "robo
de celu` (no closing quote or brace), `parse_detailed_predictions` returns
exactly one entry, keyed "9", whose justification is the partial text with
the truncation marker " [TRUNCADO]" appended (so it ends with it). -/
theorem parse_detailed_predictions_truncated_vector :
    ∃ partial_text,
      parse_detailed_predictions
          (.str "\x7b\"codigo\": \"9\", \"justificacion\": \"robo de celu") =
        .ok [("9", .str (partial_text ++ " [TRUNCADO]"))] :=
  ⟨"robo de celu", by decide⟩

/-- C9 (counterexample): the claim says the status of `run_validation_async`
tells apart "completed", "cancelled by operator" and "no work"; but a
completed run over one case and a run over the empty case list return the
same value (`True`, lines 381 and 298), though the outcomes differ. -/
theorem run_validation_status_counterexample :
    run_validation_async [Json.null] RunEvent.normal =
      run_validation_async ([] : List Json) RunEvent.normal ∧
    ([Json.null] : List Json) ≠ [] ∧
    run_validation_async [Json.null] RunEvent.normal = true := by
  refine ⟨rfl, ?_, rfl⟩
  simp

/-- C9 (amended): the boolean status distinguishes operator cancellation
(and errors) from normal termination — `False` on `KeyboardInterrupt`,
`False` on an exception — but returns `True` both for a completed run and
for an empty case list, so "completed" and "no work" are not told apart. -/
theorem run_validation_status_amended :
    (∀ data : List Json, run_validation_async data RunEvent.keyboardInterrupt = false) ∧
    (∀ data : List Json, run_validation_async data RunEvent.exception = false) ∧
    (∀ data : List Json, run_validation_async data RunEvent.normal = true) ∧
    run_validation_async ([] : List Json) RunEvent.normal =
      run_validation_async [Json.null] RunEvent.normal := by
  refine ⟨fun _ => rfl, fun _ => rfl, fun data => ?_, rfl⟩
  unfold run_validation_async
  by_cases h : data.isEmpty <;> simp [h]

/-- C10: a unified record whose id has no entry in the reference map
contributes zero flattened rows (and no parsing-issue entry):
`create_unnested_format` behaves on such an entry exactly as if the entry
were absent — it is silently skipped, so the flattened row count can drop
below the unified record count. -/
theorem create_unnested_skips_missing_reference (mode : String) (k v : Json)
    (rest : List (Json × Json)) (reference : List (Json × Json))
    (h : dictLookup reference k = none) :
    create_unnested_format mode ((k, v) :: rest) reference =
      create_unnested_format mode rest reference := by
  cases hrest : create_unnested_format mode rest reference with
  | ok p =>
    obtain ⟨rows, issues⟩ := p
    simp [create_unnested_format, processUnifiedEntry, h, hrest, Bind.bind, Except.bind]
  | error e =>
    simp [create_unnested_format, processUnifiedEntry, h, hrest, Bind.bind, Except.bind]

/-- C7 (counterexample): "batch_1.jsonl" matches a known pattern and
carries a record with id "B", yet when a file matching an earlier pattern
exists, the pattern loop `break`s after that pattern and the record in
"batch_1.jsonl" is never considered: the unified map has no entry for "B". -/
theorem load_batch_files_pattern_counterexample :
    matchesPattern "batch_*.jsonl" "batch_1.jsonl" = true ∧
    find_batch_files ["resultados_lote_1.jsonl", "batch_1.jsonl"] =
      .ok ["resultados_lote_1.jsonl"] ∧
    normalizeLineRecord "\x7b\"id\": \"B\"\x7d" =
      .record (.str "B") (.obj [("id", .str "B")]) ∧
    (load_batch_files
        [("resultados_lote_1.jsonl", ["\x7b\"id\": \"A\"\x7d"]),
         ("batch_1.jsonl", ["\x7b\"id\": \"B\"\x7d"])]).map
      (fun st => dictLookup st.unified (.str "B")) = .ok none := by
  decide

/-- C7 (amended): `load_batch_files` reads every batch file matching the
FIRST naming pattern — in the fixed order `resultados_lote_*.jsonl`,
`resultados_*_lote_*.jsonl`, `lote_*.jsonl`, `batch_*.jsonl` — that
matches at least one file (later patterns are not tried once an earlier
one matched), and every record carried by one of those selected files has
its id present in the unified map. -/
theorem load_batch_files_first_pattern_all_records
    (dir : List (String × List String)) (files : List String) (st : LoadState)
    (hfind : find_batch_files (dir.map (fun f => f.1)) = .ok files)
    (hload : load_batch_files dir = .ok st) :
    (∃ i, ∃ hi : i < batchFilePatterns.length,
      files = sortStrings ((dir.map (fun f => f.1)).filter
        (matchesPattern (batchFilePatterns.get ⟨i, hi⟩))) ∧
      ((dir.map (fun f => f.1)).filter
        (matchesPattern (batchFilePatterns.get ⟨i, hi⟩))).isEmpty = false ∧
      ∀ j, j < i → ∀ hj : j < batchFilePatterns.length,
        ((dir.map (fun f => f.1)).filter
          (matchesPattern (batchFilePatterns.get ⟨j, hj⟩))).isEmpty = true) ∧
    (∀ name ∈ files, ∀ p ∈ lineOps ((dictLookup dir name).getD []),
      (dictLookup st.unified p.1).isSome) := by
  constructor
  · have hnames : ∀ names : List String, find_batch_files names = .ok files →
        ∃ i, ∃ hi : i < batchFilePatterns.length,
          files = sortStrings (names.filter
            (matchesPattern (batchFilePatterns.get ⟨i, hi⟩))) ∧
          (names.filter (matchesPattern (batchFilePatterns.get ⟨i, hi⟩))).isEmpty = false ∧
          ∀ j, j < i → ∀ hj : j < batchFilePatterns.length,
            (names.filter (matchesPattern (batchFilePatterns.get ⟨j, hj⟩))).isEmpty = true := by
      intro names hf
      by_cases h0 : (names.filter (matchesPattern "resultados_lote_*.jsonl")).isEmpty
      · by_cases h1 : (names.filter (matchesPattern "resultados_*_lote_*.jsonl")).isEmpty
        · by_cases h2 : (names.filter (matchesPattern "lote_*.jsonl")).isEmpty
          · by_cases h3 : (names.filter (matchesPattern "batch_*.jsonl")).isEmpty
            · exfalso
              simp [find_batch_files, findFirstPattern, batchFilePatterns,
                h0, h1, h2, h3] at hf
            · refine ⟨3, by simp [batchFilePatterns], ?_, ?_, ?_⟩
              · simp [find_batch_files, findFirstPattern, batchFilePatterns,
                  h0, h1, h2, h3] at hf
                rw [← hf]
                rfl
              · simp only [batchFilePatterns, List.get]
                simp [h3]
              · intro j hj hj'
                interval_cases j <;>
                  simp only [batchFilePatterns, List.get] <;> simp [h0, h1, h2]
          · refine ⟨2, by simp [batchFilePatterns], ?_, ?_, ?_⟩
            · simp [find_batch_files, findFirstPattern, batchFilePatterns,
                h0, h1, h2] at hf
              rw [← hf]
              rfl
            · simp only [batchFilePatterns, List.get]
              simp [h2]
            · intro j hj hj'
              interval_cases j <;>
                simp only [batchFilePatterns, List.get] <;> simp [h0, h1]
        · refine ⟨1, by simp [batchFilePatterns], ?_, ?_, ?_⟩
          · simp [find_batch_files, findFirstPattern, batchFilePatterns, h0, h1] at hf
            rw [← hf]
            rfl
          · simp only [batchFilePatterns, List.get]
            simp [h1]
          · intro j hj hj'
            interval_cases j <;>
              simp only [batchFilePatterns, List.get] <;> simp [h0]
      · refine ⟨0, by simp [batchFilePatterns], ?_, ?_, ?_⟩
        · simp [find_batch_files, findFirstPattern, batchFilePatterns, h0] at hf
          rw [← hf]
          rfl
        · simp only [batchFilePatterns, List.get]
          simp [h0]
        · intro j hj
          omega
    exact hnames _ hfind
  · intro name hname p hp
    have hu := load_batch_files_unified dir files st hfind hload
    rw [hu]
    exact applyOps_lookup_isSome _ p.1
      ⟨p.2, by
        have := mem_filesOps dir files name hname p hp
        simpa using this⟩ []

/-- C7 witness: a directory whose single file matches the first pattern. -/
theorem load_batch_files_first_pattern_all_records_witness :
    find_batch_files
        ([("resultados_lote_1.jsonl",
            ["\x7b\"id\": \"A\"\x7d"])].map (fun f => f.1)) =
      .ok ["resultados_lote_1.jsonl"] ∧
    load_batch_files [("resultados_lote_1.jsonl", ["\x7b\"id\": \"A\"\x7d"])] =
      .ok ⟨[(.str "A", .obj [("id", .str "A")])], 0, 0, 0⟩ ∧
    (∀ name ∈ ["resultados_lote_1.jsonl"],
      ∀ p ∈ lineOps ((dictLookup
          [("resultados_lote_1.jsonl", ["\x7b\"id\": \"A\"\x7d"])] name).getD []),
        (dictLookup (LoadState.unified
            ⟨[(.str "A", .obj [("id", .str "A")])], 0, 0, 0⟩) p.1).isSome) :=
  ⟨by decide, by decide,
   (load_batch_files_first_pattern_all_records
      [("resultados_lote_1.jsonl", ["\x7b\"id\": \"A\"\x7d"])]
      ["resultados_lote_1.jsonl"]
      ⟨[(.str "A", .obj [("id", .str "A")])], 0, 0, 0⟩
      (by decide) (by decide)).2⟩

/-- C3: consolidation is last-write-wins over the deterministic sorted
file order — if the discovered files are `pre ++ f1 :: mid ++ f2 :: post`
(so `f1 < f2` in sorted order), `f1` carries a record with id `X` and
payload `r1`, the last record with id `X` in `f2` carries payload `r2 ≠
r1`, and no file after `f2` carries `X`, then the unified map sends `X`
to `r2`, the payload from `f2`. -/
theorem load_batch_files_last_write_wins
    (dir : List (String × List String)) (files pre mid post : List String)
    (f1 f2 : String) (X r1 r2 : Json) (o2a o2b : List (Json × Json)) (st : LoadState)
    (hfind : find_batch_files (dir.map (fun f => f.1)) = .ok files)
    (hsplit : files = pre ++ f1 :: (mid ++ f2 :: post))
    (hlt : strLt f1 f2 = true)
    (h1 : (X, r1) ∈ lineOps ((dictLookup dir f1).getD []))
    (h2 : lineOps ((dictLookup dir f2).getD []) = o2a ++ (X, r2) :: o2b)
    (h2last : ∀ p ∈ o2b, p.1 ≠ X)
    (hpost : ∀ g ∈ post, ∀ p ∈ lineOps ((dictLookup dir g).getD []), p.1 ≠ X)
    (hdiff : r1 ≠ r2)
    (hload : load_batch_files dir = .ok st) :
    dictLookup st.unified X = some r2 := by
  have hu := load_batch_files_unified dir files st hfind hload
  rw [hu, hsplit]
  have hops : filesOps dir (pre ++ f1 :: (mid ++ f2 :: post)) =
      (filesOps dir pre ++ lineOps ((dictLookup dir f1).getD []) ++
        filesOps dir mid ++ o2a) ++
      (X, r2) :: (o2b ++ filesOps dir post) := by
    rw [filesOps_append]
    show filesOps dir pre ++ filesOps dir (f1 :: (mid ++ f2 :: post)) = _
    rw [filesOps, filesOps_append]
    show _ ++ (_ ++ (_ ++ filesOps dir (f2 :: post))) = _
    rw [filesOps, h2]
    simp [List.append_assoc]
  rw [hops]
  apply applyOps_last_wins
  intro p hp
  rcases List.mem_append.mp hp with hb | hpo
  · exact h2last p hb
  · obtain ⟨g, hg, hp2⟩ := mem_filesOps_exists dir post p hpo
    exact hpost g hg p hp2

/-- C3 witness: two one-record files carrying id "X" with payloads 1 and 2;
the sorted-later file's payload wins. -/
theorem load_batch_files_last_write_wins_witness :
    find_batch_files
        ([("resultados_lote_2_x.jsonl", ["\x7b\"id\": \"X\", \"v\": 2\x7d"]),
          ("resultados_lote_1_x.jsonl", ["\x7b\"id\": \"X\", \"v\": 1\x7d"])].map
          (fun f => f.1)) =
      .ok ["resultados_lote_1_x.jsonl", "resultados_lote_2_x.jsonl"] ∧
    dictLookup (LoadState.unified
        ⟨[(.str "X", .obj [("id", .str "X"), ("v", .num 2)])], 0, 0, 0⟩) (.str "X") =
      some (.obj [("id", .str "X"), ("v", .num 2)]) :=
  ⟨by decide,
   load_batch_files_last_write_wins
     [("resultados_lote_2_x.jsonl", ["\x7b\"id\": \"X\", \"v\": 2\x7d"]),
      ("resultados_lote_1_x.jsonl", ["\x7b\"id\": \"X\", \"v\": 1\x7d"])]
     ["resultados_lote_1_x.jsonl", "resultados_lote_2_x.jsonl"]
     [] [] [] "resultados_lote_1_x.jsonl" "resultados_lote_2_x.jsonl"
     (.str "X")
     (.obj [("id", .str "X"), ("v", .num 1)])
     (.obj [("id", .str "X"), ("v", .num 2)])
     [] []
     ⟨[(.str "X", .obj [("id", .str "X"), ("v", .num 2)])], 0, 0, 0⟩
     (by decide) (by decide) (by decide) (by decide) (by decide)
     (by decide) (by decide) (by decide) (by decide)⟩

/-- C4: with `max_retries = 3` and an endpoint that raises a rate-limit
error on every attempt, `generate_prediction_api` performs exactly 3
attempts and returns the terminal sentinel (a JSON object with an ERROR
razonamiento and empty clasificaciones) instead of raising. -/
theorem generate_prediction_api_retry_termination
    (cfg : ApiConfig) (endpoint : Nat → ApiOutcome) (jitter : Nat → ℚ)
    (h3 : cfg.max_retries = 3)
    (hrl : ∀ i, ∃ et em, endpoint i = .exn et em ∧
      isRateLimitError et (pyLower em) = true) :
    (generate_prediction_api cfg endpoint jitter).1 = maxRetriesSentinel ∧
    (generate_prediction_api cfg endpoint jitter).2.length = 3 := by
  obtain ⟨et0, em0, he0, -⟩ := hrl 0
  obtain ⟨et1, em1, he1, -⟩ := hrl 1
  obtain ⟨et2, em2, he2, -⟩ := hrl 2
  unfold generate_prediction_api
  rw [h3]
  simp [generateLoop, he0, he1, he2, h3]

/-- C4 witness: a concrete 3-retry configuration against a permanent
rate-limit endpoint. -/
theorem generate_prediction_api_retry_termination_witness :
    (ApiConfig.mk 3 90 60).max_retries = 3 ∧
    (∀ i, ∃ et em,
      (fun (_ : Nat) => ApiOutcome.exn "RateLimitError" "Rate limit reached") i =
        .exn et em ∧ isRateLimitError et (pyLower em) = true) ∧
    (generate_prediction_api (ApiConfig.mk 3 90 60)
        (fun _ => ApiOutcome.exn "RateLimitError" "Rate limit reached")
        (fun _ => 0)).1 = maxRetriesSentinel ∧
    (generate_prediction_api (ApiConfig.mk 3 90 60)
        (fun _ => ApiOutcome.exn "RateLimitError" "Rate limit reached")
        (fun _ => 0)).2.length = 3 := by
  refine ⟨rfl, fun i => ⟨"RateLimitError", "Rate limit reached", rfl, by decide⟩, ?_⟩
  exact generate_prediction_api_retry_termination _ _ _ rfl
    (fun i => ⟨"RateLimitError", "Rate limit reached", rfl, by decide⟩)

/-- Per-position characterisation of the executor's attempt trace: if the
first `k` attempts after `attempt` all raise and stay within the retry
budget, the `k`-th trace entry exists, uses the incremental timeout, and
waits `retryWait` afterwards exactly when the raising attempt was not the
final one. -/
theorem generateLoop_get (cfg : ApiConfig) (endpoint : Nat → ApiOutcome)
    (jitter : Nat → ℚ) :
    ∀ (k attempt remaining : Nat), attempt + k < cfg.max_retries →
      k < remaining →
      (∀ j, j < k → ∃ et em, endpoint (attempt + j) = .exn et em) →
      ∃ w, (generateLoop cfg endpoint jitter attempt remaining).2.get? k =
          some ⟨attempt + k, cfg.timeout + (attempt + k : ℚ) * 30, w⟩ ∧
        (∀ content, endpoint (attempt + k) = .ok content → w = none) ∧
        (∀ et em, endpoint (attempt + k) = .exn et em →
          (attempt + k < cfg.max_retries - 1 →
            w = some (retryWait cfg (attempt + k) et em (jitter (attempt + k)))) ∧
          (¬(attempt + k < cfg.max_retries - 1) → w = none)) := by
  intro k
  induction k with
  | zero =>
    intro attempt remaining hlt hrem _
    simp only [Nat.add_zero] at hlt ⊢
    obtain ⟨r, rfl⟩ : ∃ r, remaining = r + 1 :=
      ⟨remaining - 1, by omega⟩
    cases he : endpoint attempt with
    | ok content =>
      refine ⟨none, ?_, ?_, ?_⟩
      · simp [generateLoop, he]
      · intro c _; rfl
      · intro et em hexn; exact absurd hexn (by simp)
    | exn et em =>
      by_cases hfin : attempt < cfg.max_retries - 1
      · refine ⟨some (retryWait cfg attempt et em (jitter attempt)), ?_, ?_, ?_⟩
        · simp [generateLoop, he, hfin]
        · intro c hc; exact absurd hc (by simp)
        · intro et' em' hexn
          obtain ⟨rfl, rfl⟩ : et = et' ∧ em = em' := by
            refine ⟨?_, ?_⟩ <;> injection hexn with h1 h2 <;> simp [h1, h2]
          exact ⟨fun _ => rfl, fun h => absurd hfin h⟩
      · refine ⟨none, ?_, ?_, ?_⟩
        · simp [generateLoop, he, hfin]
        · intro c hc; exact absurd hc (by simp)
        · intro et' em' hexn
          exact ⟨fun h => absurd h hfin, fun _ => rfl⟩
  | succ k ih =>
    intro attempt remaining hlt hrem hfail
    obtain ⟨r, rfl⟩ : ∃ r, remaining = r + 1 :=
      ⟨remaining - 1, by omega⟩
    obtain ⟨et, em, he⟩ := hfail 0 (Nat.succ_pos k)
    rw [Nat.add_zero] at he
    have hfin : attempt < cfg.max_retries - 1 := by omega
    have step : (generateLoop cfg endpoint jitter attempt (r + 1)).2 =
        ⟨attempt, cfg.timeout + (attempt : ℚ) * 30,
          some (retryWait cfg attempt et em (jitter attempt))⟩ ::
          (generateLoop cfg endpoint jitter (attempt + 1) r).2 := by
      simp [generateLoop, he, hfin]
    have hshift : ∀ j, j < k → ∃ et' em',
        endpoint (attempt + 1 + j) = .exn et' em' := by
      intro j hj
      have := hfail (j + 1) (by omega)
      rwa [show attempt + (j + 1) = attempt + 1 + j by omega] at this
    obtain ⟨w, hw, hok, hexn⟩ := ih (attempt + 1) r (by omega) (by omega) hshift
    refine ⟨w, ?_, ?_, ?_⟩
    · rw [step]
      simp only [List.get?]
      convert hw using 3
      · omega
      · push_cast
        ring
    · intro c hc
      apply hok c
      rwa [show attempt + 1 + k = attempt + (k + 1) by omega]
    · intro et' em' hexn'
      have := hexn et' em'
        (by rwa [show attempt + 1 + k = attempt + (k + 1) by omega])
      rwa [show attempt + 1 + k = attempt + (k + 1) by omega] at this

/-- C6: timing policy of `generate_prediction_api` — reached attempt `i`
(0-based) uses request timeout `base_timeout + i*30`; after a non-final
failure the wait before the next attempt is: configured retry delay +
`i*15` on a rate-limit error; `base_delay^(i+1)` (base 2) plus the jitter
draw (uniform in `[0, i*0.5]`, modelled as a bounded oracle) on a timeout
or unclassified error; twice the backoff term plus the same jitter on a
network/connection error. -/
theorem generate_prediction_api_timing
    (cfg : ApiConfig) (endpoint : Nat → ApiOutcome) (jitter : Nat → ℚ)
    (hjit : ∀ i : Nat, 0 ≤ jitter i ∧ jitter i ≤ (i : ℚ) * (1 / 2))
    (i : Nat) (hi : i < cfg.max_retries)
    (hprev : ∀ j, j < i → ∃ et em, endpoint j = ApiOutcome.exn et em) :
    ∃ w, (generate_prediction_api cfg endpoint jitter).2.get? i =
        some ⟨i, cfg.timeout + (i : ℚ) * 30, w⟩ ∧
      (∀ et em, endpoint i = .exn et em → i < cfg.max_retries - 1 →
        (isRateLimitError et (pyLower em) = true →
          w = some (cfg.retry_delay + (i : ℚ) * 15)) ∧
        (isRateLimitError et (pyLower em) = false →
          isTimeoutError (pyLower em) = true →
          w = some ((2 : ℚ) ^ (i + 1) + jitter i)) ∧
        (isRateLimitError et (pyLower em) = false →
          isTimeoutError (pyLower em) = false →
          isNetworkError (pyLower em) = true →
          w = some ((2 : ℚ) ^ (i + 1) * 2 + jitter i)) ∧
        (isRateLimitError et (pyLower em) = false →
          isTimeoutError (pyLower em) = false →
          isNetworkError (pyLower em) = false →
          w = some ((2 : ℚ) ^ (i + 1) + jitter i))) := by
  obtain ⟨w, hw, -, hexn⟩ := generateLoop_get cfg endpoint jitter i 0 cfg.max_retries
    (by omega) hi (by simpa using hprev)
  refine ⟨w, ?_, ?_⟩
  · unfold generate_prediction_api
    convert hw using 3
    · omega
    · push_cast
      ring
  · intro et em hexn' hfin
    have hwv : w = some (retryWait cfg i et em (jitter i)) := by
      have := (hexn et em (by simpa using hexn')).1 (by simpa using hfin)
      simpa using this
    refine ⟨?_, ?_, ?_, ?_⟩
    · intro hrate
      rw [hwv]
      simp [retryWait, hrate]
    · intro hrate htime
      rw [hwv]
      simp [retryWait, hrate, htime]
    · intro hrate htime hnet
      rw [hwv]
      simp [retryWait, hrate, htime, hnet]
    · intro hrate htime hnet
      rw [hwv]
      simp [retryWait, hrate, htime, hnet]

/-- C6 witness: three-retry configuration, permanent rate-limit failures,
zero jitter; attempt index 1 is non-final and its wait follows the
rate-limit formula. -/
theorem generate_prediction_api_timing_witness :
    (∀ i : Nat, 0 ≤ (fun (_ : Nat) => (0 : ℚ)) i ∧
      (fun (_ : Nat) => (0 : ℚ)) i ≤ (i : ℚ) * (1 / 2)) ∧
    1 < (ApiConfig.mk 3 90 60).max_retries ∧
    (∀ j, j < 1 → ∃ et em,
      (fun (_ : Nat) => ApiOutcome.exn "RateLimitError" "Rate limit reached") j =
        ApiOutcome.exn et em) ∧
    (∃ w, (generate_prediction_api (ApiConfig.mk 3 90 60)
        (fun _ => ApiOutcome.exn "RateLimitError" "Rate limit reached")
        (fun _ => 0)).2.get? 1 =
          some ⟨1, (ApiConfig.mk 3 90 60).timeout + (1 : ℚ) * 30, w⟩ ∧
      (∀ et em,
        (fun (_ : Nat) => ApiOutcome.exn "RateLimitError" "Rate limit reached") 1 =
          ApiOutcome.exn et em →
        1 < (ApiConfig.mk 3 90 60).max_retries - 1 →
        (isRateLimitError et (pyLower em) = true →
          w = some ((ApiConfig.mk 3 90 60).retry_delay + (1 : ℚ) * 15)) ∧
        (isRateLimitError et (pyLower em) = false →
          isTimeoutError (pyLower em) = true →
          w = some ((2 : ℚ) ^ (1 + 1) + 0)) ∧
        (isRateLimitError et (pyLower em) = false →
          isTimeoutError (pyLower em) = false →
          isNetworkError (pyLower em) = true →
          w = some ((2 : ℚ) ^ (1 + 1) * 2 + 0)) ∧
        (isRateLimitError et (pyLower em) = false →
          isTimeoutError (pyLower em) = false →
          isNetworkError (pyLower em) = false →
          w = some ((2 : ℚ) ^ (1 + 1) + 0)))) :=
  ⟨fun i => ⟨le_refl 0, by positivity⟩,
   by decide,
   fun j _ => ⟨"RateLimitError", "Rate limit reached", rfl⟩,
   generate_prediction_api_timing (ApiConfig.mk 3 90 60)
     (fun _ => ApiOutcome.exn "RateLimitError" "Rate limit reached")
     (fun _ => 0)
     (fun i => ⟨le_refl 0, by positivity⟩)
     1 (by decide)
     (fun j _ => ⟨"RateLimitError", "Rate limit reached", rfl⟩)⟩

/-- C8 (counterexample): on an input where tier 2 extracts the complete
block for code "1", tier 3 still contributes the truncated trailing block
for code "2" — tier 3 is not gated on tier 2 failing, only on the code not
being present yet. -/
theorem parse_detailed_tier_gating_counterexample :
    findCompleteBlocks
        "\x7b\"codigo\": \"1\", \"justificacion\": \"a\"\x7d \x7b\"codigo\": \"2\", \"justificacion\": \"b" =
      [("1", "a")] ∧
    parse_detailed_predictions
        (.str "\x7b\"codigo\": \"1\", \"justificacion\": \"a\"\x7d \x7b\"codigo\": \"2\", \"justificacion\": \"b") =
      .ok [("1", .str "a"), ("2", .str "b [TRUNCADO]")] := by
  decide

/-- C8 (amended): tiers 2 and 3 run only when the strict tier-1 parse (a
JSON value carrying a `clasificaciones` key) fails — on tier-1 success the
result depends only on the parsed value, not on the surrounding text — and
tier 3 never overrides an entry tier 2 extracted: for every code in the
tier-2 mapping the final mapping agrees with tier 2.  But tier 3 may add
one extra (truncated) entry even when tier 2 extracted entries. -/
theorem parse_detailed_tier_gating_amended :
    (∀ raw1 raw2 parsed, raw1 ≠ "" → raw2 ≠ "" →
      jsonParse raw1 = some parsed → jsonParse raw2 = some parsed →
      pyIn "clasificaciones" parsed = .ok true →
      parse_detailed_predictions (.str raw1) = parse_detailed_predictions (.str raw2)) ∧
    (∀ raw code res, raw ≠ "" → jsonParse raw = none →
      (dictLookup (tier2Details raw) code).isSome = true →
      parse_detailed_predictions (.str raw) = .ok res →
      dictLookup res code = dictLookup (tier2Details raw) code) := by
  constructor
  · intro raw1 raw2 parsed h1 h2 hp1 hp2 hin
    have e1 : (raw1 == "") = false := by simp [h1]
    have e2 : (raw2 == "") = false := by simp [h2]
    simp [parse_detailed_predictions, pyFalsy, e1, e2, hp1, hp2, hin,
      Bind.bind, Except.bind]
  · intro raw code res hne hparse hsome hres
    have e1 : (raw == "") = false := by simp [hne]
    have hres2 : res = tiers23 raw := by
      simp [parse_detailed_predictions, pyFalsy, e1, hparse] at hres
      exact hres.symm
    subst hres2
    unfold tiers23
    dsimp only [String.toList]
    cases hsfx : suffixFromLastBrace raw.data with
    | none => rfl
    | some suffix =>
      dsimp only
      cases htr : searchTruncado suffix with
      | none => rfl
      | some pr =>
        obtain ⟨code2, just⟩ := pr
        dsimp only
        by_cases hc : (dictLookup (tier2Details raw) code2).isSome
        · simp [hc]
        · have hneq : code ≠ code2 := by
            intro e
            rw [e] at hsome
            exact hc hsome
          simp only [hc, Bool.false_eq_true, if_false]
          exact dictLookup_dictInsert_ne _ code2 code _ hneq

/-- C1: `process_batch_async` yields exactly one result record per
submitted case, in submission order, and `save_batch_results` writes
exactly one line per record; each record carries the case's id (default
"unknown"), and is either the failed sentinel (error flag true and empty
`predicted_codes`) or a success record with no error flag —
`process_single_case` catches every exception, so no case is dropped. -/
theorem process_batch_persists_one_record_per_case
    (kbPrompt : Json → Except String (String × String)) (cfg : ApiConfig)
    (endpoints : Nat → Nat → ApiOutcome) (jitters : Nat → Nat → ℚ)
    (exnMsg : PyExn → String) (timestamp : String)
    (batch : List (List (String × Json))) :
    (save_batch_results
        (process_batch_async kbPrompt cfg endpoints jitters exnMsg timestamp batch)).length =
      batch.length ∧
    (process_batch_async kbPrompt cfg endpoints jitters exnMsg timestamp batch).length =
      batch.length ∧
    (∀ i, i < batch.length →
      dictLookup
          ((process_batch_async kbPrompt cfg endpoints jitters exnMsg timestamp batch).getD i [])
          "id" =
        some ((dictLookup (batch.getD i []) "id").getD (.str "unknown")) ∧
      ((dictLookup
            ((process_batch_async kbPrompt cfg endpoints jitters exnMsg timestamp batch).getD i [])
            "error" = some (.bool true) ∧
        dictLookup
            ((process_batch_async kbPrompt cfg endpoints jitters exnMsg timestamp batch).getD i [])
            "predicted_codes" = some (.arr [])) ∨
       dictLookup
          ((process_batch_async kbPrompt cfg endpoints jitters exnMsg timestamp batch).getD i [])
          "error" = none)) := by
  have hshape : ∀ (endpoint : Nat → ApiOutcome) (jitter : Nat → ℚ)
      (case_data : List (String × Json)),
      dictLookup (process_single_case kbPrompt cfg endpoint jitter exnMsg timestamp case_data)
          "id" = some ((dictLookup case_data "id").getD (.str "unknown")) ∧
      ((dictLookup (process_single_case kbPrompt cfg endpoint jitter exnMsg timestamp case_data)
            "error" = some (.bool true) ∧
        dictLookup (process_single_case kbPrompt cfg endpoint jitter exnMsg timestamp case_data)
            "predicted_codes" = some (.arr [])) ∨
       dictLookup (process_single_case kbPrompt cfg endpoint jitter exnMsg timestamp case_data)
          "error" = none) := by
    intro endpoint jitter case_data
    unfold process_single_case
    dsimp only
    cases hkb : kbPrompt ((dictLookup case_data "observacion").getD (.str "")) with
    | error e => exact ⟨rfl, .inl ⟨rfl, rfl⟩⟩
    | ok pr =>
      cases hpr : parse_response (generate_prediction_api cfg endpoint jitter).1 with
      | error ex => exact ⟨rfl, .inl ⟨rfl, rfl⟩⟩
      | ok pc =>
        obtain ⟨codes, raz⟩ := pc
        exact ⟨rfl, .inr rfl⟩
  have hlen : ∀ (start : Nat) (b : List (List (String × Json))),
      (processBatchAux kbPrompt cfg endpoints jitters exnMsg timestamp start b).length =
        b.length := by
    intro start b
    induction b generalizing start with
    | nil => rfl
    | cons c cs ih => simp [processBatchAux, ih]
  have hget : ∀ (b : List (List (String × Json))) (i start : Nat), i < b.length →
      (processBatchAux kbPrompt cfg endpoints jitters exnMsg timestamp start b).getD i [] =
        process_single_case kbPrompt cfg (endpoints (start + i)) (jitters (start + i))
          exnMsg timestamp (b.getD i []) := by
    intro b
    induction b with
    | nil => intro i start h; simp at h
    | cons c cs ih =>
      intro i start h
      cases i with
      | zero => simp [processBatchAux]
      | succ j =>
        have := ih j (start + 1) (by simpa using h)
        simpa [processBatchAux, Nat.add_assoc, Nat.add_comm 1 j] using this
  refine ⟨?_, ?_, ?_⟩
  · simp [save_batch_results, process_batch_async, hlen]
  · exact hlen 0 batch
  · intro i hi
    have hg := hget batch i 0 hi
    unfold process_batch_async
    rw [hg]
    simpa using hshape (endpoints (0 + i)) (jitters (0 + i)) (batch.getD i [])

/-- C10 witness: a one-record unified map against an empty reference map
yields the empty flattened output. -/
theorem create_unnested_skips_missing_reference_witness :
    dictLookup ([] : List (Json × Json)) (.str "A") = none ∧
    create_unnested_format "complex"
        [((.str "A"), Json.obj [("id", .str "A")])] [] =
      create_unnested_format "complex" [] [] :=
  ⟨rfl,
   create_unnested_skips_missing_reference "complex" (.str "A")
     (Json.obj [("id", .str "A")]) [] [] rfl⟩

end Enapres
